import Mathlib

/-!
Verification of the `presentation_tagging/dimensions` package (a
multi-dimensional content-classification engine) against its
natural-language specification.

The Python sources are shallowly embedded below.  Conventions of the
embedding:

* Python strings are `String` / `List Char`; `str.lower` is the ASCII
  `lowerChar` map (the source text and keyword tables are ASCII apart
  from the micro sign, which `lower` leaves unchanged in both worlds).
* Python floats are exact rationals `ℚ`.  Scores that the source keeps
  as floats with small fixed denominators are carried as scaled
  integers (the scale is noted at each definition) so that every
  branch condition is computable; the stored `DimensionValue` fields
  are the corresponding exact rationals.
* Python `re` word-boundary matching of the literal keyword patterns
  (`r'\b' + re.escape(keyword) + r'\b'`) is `scanAny`/`scanCount`:
  non-overlapping left-to-right matches whose neighbouring characters
  are not word characters.  All keywords in the tables start and end
  with word characters, for which this is exactly `\b` semantics.
* Code that raises a Python exception is embedded in `Except PyErr`.
* Python `dict` preserves insertion order (CPython ≥ 3.7); Python
  `set` iteration order is unspecified, so keyword *sets* of the topic
  taxonomy are embedded as lists in their authored order (one
  admissible iteration order; all score accumulation over them is
  commutative).
-/

/-! ## Text primitives -/

/-- ASCII lower-casing of one character, as `str.lower` acts on the
character set appearing in this package. -/
def lowerChar (c : Char) : Char :=
  if 'A' ≤ c ∧ c ≤ 'Z' then Char.ofNat (c.toNat + 32) else c

/-- Lower-case a character list (`text.lower()`). -/
def lowerL (l : List Char) : List Char := l.map lowerChar

/-- Does the first list occur at the head of the second one? -/
def leadMatch : List Char → List Char → Bool
  | [], _ => true
  | _ :: _, [] => false
  | a :: as, b :: bs => a == b && leadMatch as bs

/-- Python substring test `needle in hay`. -/
def occursIn (needle : List Char) : List Char → Bool
  | [] => leadMatch needle []
  | c :: rest => leadMatch needle (c :: rest) || occursIn needle rest

/-- Python regex word character (`\w`): alphanumeric or underscore. -/
def isWordChar (c : Char) : Bool := c.isAlphanum || c == '_'

/-- Python `str.split()` whitespace (ASCII part). -/
def pySpace (c : Char) : Bool :=
  c == ' ' || c == '\t' || c == '\n' || c == '\r' || c == '\x0b' || c == '\x0c'

/-- Maximal runs of characters satisfying `p` (used for `\w+` word runs
and for `str.split()` token counting). -/
def runsByAux (p : Char → Bool) (cur : List Char) : List Char → List (List Char)
  | [] => if cur.isEmpty then [] else [cur.reverse]
  | c :: rest =>
    if p c then runsByAux p (c :: cur) rest
    else if cur.isEmpty then runsByAux p [] rest
    else cur.reverse :: runsByAux p [] rest

/-- Maximal runs of characters satisfying `p`. -/
def runsBy (p : Char → Bool) (l : List Char) : List (List Char) := runsByAux p [] l

/-- Number of tokens of Python `text.split()`. -/
def totalWords (raw : List Char) : ℕ := (runsBy (fun c => !pySpace c) raw).length

/-- Is the character following a match (if any) a non-word character
(the trailing `\b` of a keyword pattern)? -/
def endsOk (needle : List Char) (hay : List Char) : Bool :=
  match hay.drop needle.length with
  | [] => true
  | c :: _ => !isWordChar c

/-- Fuel-driven scan of `re.findall` for an alternation of literal
needles, each wrapped in `\b…\b`: at every position whose predecessor
is not a word character, the first needle that matches and is followed
by a boundary counts, and scanning resumes after it. -/
def scanAnyF (needles : List (List Char)) : ℕ → List Char → Bool → ℕ
  | 0, _, _ => 0
  | _ + 1, [], _ => 0
  | f + 1, c :: rest, prevW =>
    match (if prevW then none
           else needles.find? (fun n => leadMatch n (c :: rest) && endsOk n (c :: rest))) with
    | some n => 1 + scanAnyF needles f (List.drop (n.length - 1) rest) (isWordChar (n.getLastD c))
    | none => scanAnyF needles f rest (isWordChar c)

/-- Count of `re.findall(r'\b(?:n₁|n₂|…)\b', hay)` for literal needles. -/
def scanAny (needles : List (List Char)) (hay : List Char) : ℕ :=
  scanAnyF needles hay.length hay false

/-- Count of `re.findall(r'\b' + re.escape(needle) + r'\b', hay)`. -/
def scanCount (needle hay : List Char) : ℕ := scanAny [needle] hay

/-- Does some `\w+` word run start with `stem` and continue with at
least one more word character (`re.search(r'\b<stem>\w+\b', hay)`)? -/
def stemSearch (stem : List Char) (hay : List Char) : Bool :=
  (runsBy isWordChar hay).any (fun w => leadMatch stem w && stem.length < w.length)

/-! ## Value and error types -/

/-- Value payloads that actually occur in `DimensionValue.value` and in
its metadata map: strings, numbers, and lists of strings. -/
inductive PVal where
  | pstr (s : String)
  | pnum (q : ℚ)
  | plist (l : List String)
deriving DecidableEq

/-- Embedding of `base_dimension.DimensionValue`: one candidate tag. -/
structure DimensionValue where
  value : PVal
  confidence : ℚ
  source : String
  metadata : List (String × PVal)
deriving DecidableEq

/-- Python values that may be handed to `validate_value` (including the
unhashable representative, lists). -/
inductive PyIn where
  | pynone
  | pybool (b : Bool)
  | pyint (n : ℤ)
  | pyfloat (q : ℚ)
  | pystr (s : String)
  | pylist (l : List PyIn)

/-- Python exceptions that the embedded code can raise. -/
inductive PyErr where
  | nameErr
  | zeroDivErr
  | typeErr
  | valueErr (msg : String)
deriving DecidableEq

/-- The open `context` map (only string values are ever consulted). -/
def Ctx := List (String × String)

/-- Lookup in the context map (`context.get(key)`). -/
def ctxGet (c : Ctx) (k : String) : Option String :=
  ((List.find? (fun p => p.1 == k)) c).map (fun p => p.2)

/-! ## Topic taxonomy (`topic_dimension.py`)

The tree built by `TopicDimension._build_taxonomy`, with children in
`append`/`extend` order and keyword/alias sets as lists in authored
order. -/

/-- A taxonomy node: id, display name, keywords, aliases, children. -/
inductive TTree where
  | mk (tid tname : String) (kw al : List String) (children : List TTree)

/-- Node id projection. -/
def TTree.idOf : TTree → String
  | .mk i _ _ _ _ => i

/-- Node name projection. -/
def TTree.nameOf : TTree → String
  | .mk _ n _ _ _ => n

/-- Node children projection. -/
def TTree.childrenOf : TTree → List TTree
  | .mk _ _ _ _ ch => ch

/-- Clinical Domains subtree. -/
def clinicalNode : TTree :=
  .mk "clinical" "Clinical Domains" [] []
    [.mk "neuro" "Neurological Conditions" [] []
      [.mk "asd" "Autism Spectrum Disorders"
        ["autism", "asd", "autistic", "spectrum disorder"]
        ["autism spectrum", "autistic disorder"]
        [.mk "asd-pathophysiology" "Pathophysiology" [] [] [],
         .mk "asd-biomarkers" "Biomarkers" [] [] [],
         .mk "asd-interventions" "Interventions" [] [] []],
       .mk "cfs" "Chronic Fatigue Syndrome"
        ["chronic fatigue", "cfs", "me/cfs", "myalgic encephalomyelitis"]
        ["ME", "CFS/ME"] []],
     .mk "metabolic" "Metabolic Disorders" [] []
      [.mk "mitochondrial" "Mitochondrial Dysfunction"
        ["mitochondria", "mitochondrial", "ATP", "cellular respiration"] [] [],
       .mk "energy-metabolism" "Energy Metabolism"
        ["metabolism", "metabolic", "energy production", "krebs cycle"] [] [],
       .mk "oxidative-stress" "Oxidative Stress"
        ["oxidative", "ROS", "reactive oxygen", "antioxidant"] [] []]]

/-- Research Methodologies subtree. -/
def researchNode : TTree :=
  .mk "research" "Research Methodologies" [] []
    [.mk "lab-techniques" "Laboratory Techniques" [] []
      [.mk "metabolomics" "Metabolomics" [] [] [],
       .mk "proteomics" "Proteomics" [] [] [],
       .mk "genomics" "Genomics" [] [] []]]

/-- Theoretical Frameworks subtree. -/
def theoryNode : TTree :=
  .mk "theory" "Theoretical Frameworks" [] []
    [.mk "cdr" "Cell Danger Response"
      ["cell danger", "CDR", "danger response", "naviaux"] [] []]

/-- Clinical Applications subtree. -/
def applicationsNode : TTree :=
  .mk "applications" "Clinical Applications" [] []
    [.mk "diagnostics" "Diagnostic Protocols" [] [] [],
     .mk "treatment" "Treatment Planning" [] [] []]

/-- The whole taxonomy rooted at the synthetic `"root"` node
(`TopicDimension._build_taxonomy`). -/
def taxonomy : TTree :=
  .mk "root" "Root" [] [] [clinicalNode, researchNode, theoryNode, applicationsNode]

/-- One taxonomy node together with the data `TopicNode` derives from
its parent links: depth (`get_depth`, root = 0) and full path from the
root (`get_path`). -/
structure NodeInfo where
  id : String
  name : String
  kw : List String
  al : List String
  depth : ℕ
  path : List String
deriving DecidableEq

mutual
/-- Preorder flattening of a subtree, annotating depth and path — the
same visit order as `_build_keyword_map`/`_find_node_by_id`. -/
def flattenT (t : TTree) (d : ℕ) (pre : List String) : List NodeInfo :=
  match t with
  | .mk i n kw al ch => ⟨i, n, kw, al, d, pre ++ [n]⟩ :: flattenL ch (d + 1) (pre ++ [n])
/-- Preorder flattening of a forest. -/
def flattenL (ts : List TTree) (d : ℕ) (pre : List String) : List NodeInfo :=
  match ts with
  | [] => []
  | t :: ts' => flattenT t d pre ++ flattenL ts' d pre
end

/-- All taxonomy nodes in preorder (root included, as in the keyword
map, which also indexes the root under its name). -/
def allNodes : List NodeInfo := flattenT taxonomy 0 []

/-- Depth-first search by id (`TopicDimension._find_node_by_id`). -/
def findNodeById (i : String) : Option NodeInfo :=
  allNodes.find? (fun n => n.id == i)

/-- The lower-cased keys under which `_build_keyword_map` indexes a
node: its name, its keywords, and its aliases. -/
def nodeKeysL (n : NodeInfo) : List (List Char) :=
  lowerL n.name.data :: (n.kw.map (fun k => lowerL k.data) ++ n.al.map (fun k => lowerL k.data))

/-- Keyword score of one node, scaled by 5 so that it is an integer:
for each indexed key occurring as a substring of the lowered text, the
`\b`-bounded occurrence count times the weight `1 + 0.2 * depth`
becomes `count * (5 + depth)` at scale 5 (`suggest_value`, direct
keyword matching loop). -/
def topicKwScore5 (tl : List Char) (n : NodeInfo) : ℤ :=
  ((nodeKeysL n).map (fun k =>
    if occursIn k tl then (scanCount k tl : ℤ) * (5 + (n.depth : ℤ)) else 0)).sum

/-- The `medical_patterns` table: regex stem and target node ids.  The
id `"biomarkers"` resolves to no node (the node id is
`"asd-biomarkers"`), exactly as in the source, where
`_find_node_by_id("biomarkers")` returns `None` and the bonus is
dropped. -/
def medicalStems : List (String × List String) :=
  [("mitochond", ["mitochondrial"]),
   ("metabol", ["metabolic", "energy-metabolism"]),
   ("oxidat", ["oxidative-stress"]),
   ("autis", ["asd"]),
   ("biomark", ["biomarkers"]),
   ("fatigu", ["cfs"]),
   ("neurol", ["neuro"]),
   ("treatment", ["treatment"]),
   ("diagnos", ["diagnostics"])]

/-- Stem-pattern bonus of a node id, scaled by 5: `+1.0` per firing
pattern listing this id. -/
def topicPatScore5 (tl : List Char) (nid : String) : ℤ :=
  (medicalStems.map (fun p =>
    if stemSearch p.1.data tl && p.2.contains nid then (5 : ℤ) else 0)).sum

/-- Total accumulated score of a node (scale 5). -/
def topicScore5 (tl : List Char) (n : NodeInfo) : ℤ :=
  topicKwScore5 tl n + topicPatScore5 tl n.id

/-- Nodes entered into `topic_scores` by the keyword pass: any indexed
key occurs as substring of the lowered text (a zero `\b`-count still
creates the entry, via `defaultdict`). -/
def kwMatchedNodes (tl : List Char) : List NodeInfo :=
  allNodes.filter (fun n => (nodeKeysL n).any (fun k => occursIn k tl))

/-- Nodes additionally entered by the stem-pattern pass, appended in
pattern order, skipping ids already present. -/
def addPatternNodes (tl : List Char) (base : List NodeInfo) : List NodeInfo :=
  medicalStems.foldl (fun acc p =>
    if stemSearch p.1.data tl then
      p.2.foldl (fun ac i =>
        match findNodeById i with
        | some n => if ac.any (fun m => m.id == n.id) then ac else ac ++ [n]
        | none => ac) acc
    else acc) base

/-- The keys of `topic_scores` in first-insertion order. -/
def topicCandidates (tl : List Char) : List NodeInfo :=
  addPatternNodes tl (kwMatchedNodes tl)

/-- Insert into a descending-by-key list, after existing entries with
an equal or larger key (the stable placement of Python `sorted` with
`reverse=True`). -/
def insDescBy {α : Type} (f : α → ℤ) (x : α) : List α → List α
  | [] => [x]
  | y :: ys => if f x > f y then x :: y :: ys else y :: insDescBy f x ys

/-- Stable descending sort by an integer key. -/
def sortDescBy {α : Type} (f : α → ℤ) (l : List α) : List α :=
  l.foldl (fun acc x => insDescBy f x acc) []

/-- Embedding of `TopicDimension.suggest_value`.  When the top sorted
score is `0.0` the source computes `0.0 / 0.0` for the first
suggestion's confidence and raises `ZeroDivisionError`; otherwise the
top 5 sorted nodes are returned with confidence
`min(score / max_score, 1.0) * 0.9` (the scale-5 integers satisfy
`s5 / m5 = score / max_score`). -/
def topicSuggestValue (text : String) : Except PyErr (List DimensionValue) :=
  let tl := lowerL text.data
  let sortedT := sortDescBy (fun n => topicScore5 tl n) (topicCandidates tl)
  match sortedT with
  | [] => .ok []
  | top :: _ =>
    let m5 := topicScore5 tl top
    if m5 = 0 then .error .zeroDivErr
    else .ok ((sortedT.take 5).map (fun n =>
      let s5 := topicScore5 tl n
      { value := .pstr n.id
        confidence := min ((s5 : ℚ) / (m5 : ℚ)) 1 * (9 / 10)
        source := "nlp"
        metadata := [("path", .plist n.path),
                     ("score", .pnum ((s5 : ℚ) / 5)),
                     ("keywords_matched",
                      .plist (n.kw.filter (fun k => occursIn k.data tl)))] }))

/-- Python `child.name == segment` (false on non-string segments). -/
def segMatch (nm : String) : PyIn → Bool
  | .pystr s => nm == s
  | _ => false

/-- The walk of `TopicDimension._validate_path`: starting from the
given children list, each segment must name a child of the current
node; the walk looks up the first child with a matching name. -/
def walkSegs : List TTree → List PyIn → Bool
  | _, [] => true
  | ch, s :: rest =>
    match ch.find? (fun c => segMatch c.nameOf s) with
    | some c => walkSegs c.childrenOf rest
    | none => false

/-- Embedding of `_validate_path`: the first segment is skipped
(`for segment in path[1:]`) and never compared with anything. -/
def validPathList (l : List PyIn) : Bool :=
  walkSegs taxonomy.childrenOf (l.drop 1)

/-- Embedding of `TopicDimension.validate_value`. -/
def topicValidate : PyIn → Bool
  | .pystr s => (findNodeById s).isSome
  | .pylist l => validPathList l
  | _ => false

/-- Length of the common leading prefix of two paths (the source loop
breaks at the first mismatch). -/
def commonPref : List String → List String → ℕ
  | a :: as, b :: bs => if a = b then 1 + commonPref as bs else 0
  | _, _ => 0

/-- Node lookup used by `calculate_similarity`: values that are not
strings match no node id. -/
def findNodePy : PyIn → Option NodeInfo
  | .pystr s => findNodeById s
  | _ => none

/-- Embedding of `TopicDimension.calculate_similarity`.  Node identity
(`node1 == node2`) is equality of the flattened node records, faithful
because ids are unique in the fixed tree. -/
def calcSimilarity (v1 v2 : PyIn) : ℚ :=
  match findNodePy v1, findNodePy v2 with
  | some n1, some n2 =>
    if n1 = n2 then 1
    else
      let c := commonPref n1.path n2.path
      let m := max n1.path.length n2.path.length
      if 0 < m then (c : ℚ) / (m : ℚ) else 0
  | _, _ => 0

/-! ## Complexity dimension (`complexity_dimension.py`) -/

/-- One entry of `COMPLEXITY_INDICATORS`: keyword and phrase lists and
the numeric `score_range` of the level. -/
structure CLevel where
  key : String
  kws : List String
  phs : List String
  lo : ℤ
  hi : ℤ
deriving DecidableEq

/-- The `COMPLEXITY_INDICATORS` table, in dict order. -/
def complexityIndicators : List CLevel :=
  [⟨"beginner",
    ["introduction", "basics", "fundamental", "overview", "101",
     "beginner", "getting started", "primer", "essentials"],
    ["what is", "introduction to", "basics of", "for beginners"], 1, 3⟩,
   ⟨"intermediate",
    ["practical", "application", "case study", "clinical",
     "implementation", "protocol", "management"],
    ["how to", "best practices", "clinical applications", "case studies"], 4, 6⟩,
   ⟨"advanced",
    ["advanced", "complex", "detailed", "comprehensive", "research",
     "mechanism", "pathophysiology", "molecular"],
    ["deep dive", "advanced topics", "research findings", "mechanisms of"], 7, 9⟩,
   ⟨"expert",
    ["cutting-edge", "novel", "emerging", "frontier", "breakthrough",
     "controversial", "debate", "hypothesis"],
    ["latest research", "novel approaches", "emerging evidence", "future directions"], 9, 10⟩]

/-- Score of one level: `+2` per keyword substring, `+3` per phrase
substring. -/
def levelScore (tl : List Char) (L : CLevel) : ℤ :=
  (L.kws.map (fun k => if occursIn k.data tl then (2 : ℤ) else 0)).sum +
  (L.phs.map (fun p => if occursIn p.data tl then (3 : ℤ) else 0)).sum

/-- Python `max(items, key=…)`: the first element attaining the maximal
key (later elements replace only on a strictly greater key). -/
def firstMaxBy {α : Type} (f : α → ℤ) : List α → Option α
  | [] => none
  | x :: xs => some (xs.foldl (fun b y => if f y > f b then y else b) x)

/-- Stems of the first `technical_indicators` pattern
(`\b(?:…)\w*\b`, so a word merely has to start with a stem). -/
def techStems : List String :=
  ["metabol", "mitochondr", "oxidat", "pathophysio", "biomark", "proteom", "genomic"]

/-- Units of the dosage pattern `\b\d+\s*(?:mg|ml|μM|mM|ng|pg|IU)\b`,
lower-cased (the source matches with `re.IGNORECASE`). -/
def doseUnits : List String := ["mg", "ml", "μm", "mm", "ng", "pg", "iu"]

/-- Statistical terms pattern, lower-cased. -/
def statTerms : List String :=
  ["p-value", "significance", "correlation", "regression", "ci", "sd", "sem"]

/-- Research terms pattern. -/
def researchTerms : List String :=
  ["methodology", "hypothesis", "mechanism", "pathway", "substrate", "receptor"]

/-- Medical condition terms pattern. -/
def conditionTerms : List String :=
  ["dysfunction", "syndrome", "disorder", "disease", "pathology"]

/-- Attempt to match `\d+\s*<unit>\b` at the head of `l` (greedy digits
then greedy whitespace, which is exact for these patterns because the
units start with letters); returns the consumed length. -/
def dosageHere (units : List (List Char)) (l : List Char) : Option ℕ :=
  let ds := l.takeWhile Char.isDigit
  if ds.isEmpty then none
  else
    let r1 := l.drop ds.length
    let sp := r1.takeWhile pySpace
    let r2 := r1.drop sp.length
    match units.find? (fun u => leadMatch u r2 && endsOk u r2) with
    | some u => some (ds.length + sp.length + u.length)
    | none => none

/-- Fuel-driven scan counting non-overlapping dosage matches whose
leading digit sits at a word boundary. -/
def dosageScanF (units : List (List Char)) : ℕ → List Char → Bool → ℕ
  | 0, _, _ => 0
  | _ + 1, [], _ => 0
  | f + 1, c :: rest, prevW =>
    match (if !prevW && c.isDigit then dosageHere units (c :: rest) else none) with
    | some k => 1 + dosageScanF units f (List.drop (k - 1) rest) true
    | none => dosageScanF units f rest (isWordChar c)

/-- Count of dosage-pattern matches. -/
def dosageCount (units : List (List Char)) (hay : List Char) : ℕ :=
  dosageScanF units hay.length hay false

/-- Total matches of the five `technical_indicators` patterns
(`_calculate_technical_score`, counting pass). -/
def techMatches (tl : List Char) : ℕ :=
  (runsBy isWordChar tl).countP (fun w => techStems.any (fun s => leadMatch s.data w)) +
  dosageCount (doseUnits.map String.data) tl +
  scanAny (statTerms.map String.data) tl +
  scanAny (researchTerms.map String.data) tl +
  scanAny (conditionTerms.map String.data) tl

/-- The technical score `min(matches / max(total_words, 1) * 10, 1.0)`
as an exact fraction (numerator, positive denominator). -/
def techFrac (text : String) : ℕ × ℕ :=
  let m := techMatches (lowerL text.data)
  let w := max (totalWords text.data) 1
  if 10 * m ≤ w then (10 * m, w) else (1, 1)

/-- Comparison `p.1 / p.2 > a / b` for positive denominators. -/
def fracAbove (p : ℕ × ℕ) (a b : ℕ) : Bool := decide (b * p.1 > a * p.2)

/-- Phrases of `_calculate_prerequisite_score`. -/
def prereqPhrases : List String :=
  ["requires understanding of", "builds upon", "assumes knowledge",
   "prerequisite", "advanced understanding", "familiarity with"]

/-- Twice the prerequisite score: `min(count * 0.5, 2.0)` at scale 2. -/
def prereqCount2 (tl : List Char) : ℕ :=
  min (prereqPhrases.countP (fun p => occursIn p.data tl)) 4

/-- Embedding of `ComplexityDimension.suggest_value`.  The level-score
dict is a literal with all four levels, so the primary branch always
fires and the `technical_analysis` fallback is dead code; both are kept
to mirror the source.  Numeric values are carried at scale 2 (`v2` is
twice the reported complexity value). -/
def complexitySuggestValue (text : String) : Except PyErr (List DimensionValue) :=
  let tl := lowerL text.data
  let levelScores := complexityIndicators.map (fun L => (L, levelScore tl L))
  let tf := techFrac text
  let p2 := prereqCount2 tl
  let sug1 : List DimensionValue :=
    if levelScores.isEmpty then []
    else
      match firstMaxBy (fun e => e.2) levelScores with
      | none => []
      | some e =>
        let v2 :=
          if fracAbove tf 7 10 then 2 * e.1.hi
          else if fracAbove tf 2 5 then e.1.lo + e.1.hi
          else 2 * e.1.lo
        let v2c := max 2 (min 20 (v2 + (p2 : ℤ)))
        [{ value := .pnum ((v2c : ℚ) / 2)
           confidence := 7/10
           source := "nlp"
           metadata := [("level", .pstr e.1.key),
                        ("technical_score", .pnum ((tf.1 : ℚ) / (tf.2 : ℚ))),
                        ("prerequisite_score", .pnum ((p2 : ℚ) / 2)),
                        ("indicators_found",
                         .pnum (((levelScores.map (fun q => q.2)).sum : ℤ) : ℚ))] }]
  if sug1.isEmpty then
    let v : ℚ := if fracAbove tf 3 5 then 7 else if fracAbove tf 3 10 then 5 else 3
    .ok [{ value := .pnum v
           confidence := 1/2
           source := "nlp"
           metadata := [("technical_score", .pnum ((tf.1 : ℚ) / (tf.2 : ℚ))),
                        ("method", .pstr "technical_analysis")] }]
  else .ok sug1

/-! ## Approach type dimension (`approach_type_dimension.py`) -/

/-- One band of `APPROACH_SPECTRUM`. -/
structure ABand where
  key : String
  val : ℤ
  bname : String
  kws : List String
deriving DecidableEq

/-- The `APPROACH_SPECTRUM` table, in dict order. -/
def approachSpectrum : List ABand :=
  [⟨"theoretical", 1, "Highly Theoretical",
    ["theory", "concept", "hypothesis", "mechanism", "principle",
     "model", "framework", "fundamental", "abstract", "philosophical"]⟩,
   ⟨"theory-leaning", 2, "Theory-Leaning",
    ["understanding", "explanation", "background", "foundation",
     "rationale", "evidence", "research-based"]⟩,
   ⟨"balanced", 3, "Balanced",
    ["application", "implementation", "practical considerations",
     "case examples", "both theory and practice"]⟩,
   ⟨"practice-leaning", 4, "Practice-Leaning",
    ["clinical", "hands-on", "practical tips", "how-to",
     "guidelines", "protocols", "procedures"]⟩,
   ⟨"practical", 5, "Highly Practical",
    ["step-by-step", "tutorial", "demonstration", "workshop",
     "skills", "techniques", "tools", "immediate application"]⟩]

/-- Number of tokens of `keyword.split()`. -/
def wordsOf (k : String) : ℕ := totalWords k.data

/-- Band score at scale 2: `len(keyword.split())` per matched keyword,
doubled so the later `* 1.5` boost stays integral. -/
def bandScore2 (tl : List Char) (b : ABand) : ℤ :=
  (b.kws.map (fun k => if occursIn k.data tl then 2 * (wordsOf k : ℤ) else 0)).sum

/-- The `practical_indicators` list. -/
def practIndicators : List String :=
  ["step 1", "step 2", "first,", "second,", "finally,",
   "protocol", "procedure", "checklist", "workflow"]

/-- The `theoretical_indicators` list. -/
def theoIndicators : List String :=
  ["hypothesis", "theory suggests", "conceptually", "in principle",
   "theoretical framework", "model predicts"]

/-- Multiply the scores of the named bands by 1.5 (exact on the even
scale-2 scores). -/
def boostBands (keys : List String) (l : List (ABand × ℤ × List String)) :
    List (ABand × ℤ × List String) :=
  l.map (fun e => if keys.contains e.1.key then (e.1, e.2.1 * 3 / 2, e.2.2) else e)

/-- The boosted band-score dict of `ApproachTypeDimension.suggest_value`. -/
def approachEntries (tl : List Char) : List (ABand × ℤ × List String) :=
  let entries : List (ABand × ℤ × List String) :=
    approachSpectrum.filterMap (fun b =>
      let s := bandScore2 tl b
      if s > 0 then some (b, s, b.kws.filter (fun k => occursIn k.data tl)) else none)
  let pc := practIndicators.countP (fun p => occursIn p.data tl)
  let tc := theoIndicators.countP (fun p => occursIn p.data tl)
  if pc > tc then boostBands ["practice-leaning", "practical"] entries
  else if tc > pc then boostBands ["theoretical", "theory-leaning"] entries
  else entries

/-- Embedding of `ApproachTypeDimension.suggest_value`. -/
def approachSuggestValue (text : String) : Except PyErr (List DimensionValue) :=
  let tl := lowerL text.data
  let pc := practIndicators.countP (fun p => occursIn p.data tl)
  let tc := theoIndicators.countP (fun p => occursIn p.data tl)
  match firstMaxBy (fun e => e.2.1) (approachEntries tl) with
  | some e =>
    .ok [{ value := .pnum (e.1.val : ℚ)
           confidence := 7/10
           source := "nlp"
           metadata := [("approach", .pstr e.1.key),
                        ("name", .pstr e.1.bname),
                        ("matched_keywords", .plist e.2.2),
                        ("practical_indicators", .pnum (pc : ℚ)),
                        ("theoretical_indicators", .pnum (tc : ℚ))] }]
  | none =>
    .ok [{ value := .pnum 3
           confidence := 2/5
           source := "nlp"
           metadata := [("approach", .pstr "balanced"),
                        ("name", .pstr "Balanced"),
                        ("reason", .pstr "no_clear_indicators")] }]

/-! ## Evidence level dimension (`evidence_level_dimension.py`) -/

/-- One entry of `EVIDENCE_LEVELS`. -/
structure ELevel where
  key : String
  bname : String
  descr : String
  kws : List String
  phs : List String
deriving DecidableEq

/-- The `EVIDENCE_LEVELS` table, in dict order. -/
def evidenceLevels : List ELevel :=
  [⟨"emerging", "Emerging", "Early research, preliminary findings",
    ["preliminary", "pilot", "initial", "early", "emerging",
     "novel", "first", "exploratory", "hypothesis-generating"],
    ["early evidence", "preliminary data", "pilot study",
     "initial findings", "emerging research"]⟩,
   ⟨"developing", "Developing", "Growing body of evidence, some validation",
    ["developing", "growing", "accumulating", "promising",
     "encouraging", "building", "evolving"],
    ["growing evidence", "accumulating data", "recent studies",
     "multiple studies", "converging evidence"]⟩,
   ⟨"established", "Established", "Well-validated with strong evidence base",
    ["established", "validated", "confirmed", "proven",
     "well-documented", "consensus", "standard", "accepted"],
    ["well established", "strong evidence", "meta-analysis",
     "systematic review", "clinical guidelines", "gold standard"]⟩,
   ⟨"controversial", "Controversial", "Conflicting evidence or ongoing debate",
    ["controversial", "debate", "conflicting", "disputed",
     "contested", "mixed", "inconsistent", "paradoxical"],
    ["ongoing debate", "conflicting results", "controversial topic",
     "mixed evidence", "paradoxical findings"]⟩]

/-- Keyword/phrase entry of one evidence level: `+2` per keyword, `+3`
per phrase, matched terms in keyword-then-phrase order; only scores
`> 0` enter the dict. -/
def elEntry (tl : List Char) (L : ELevel) : Option (String × ℤ × List String) :=
  let s := (L.kws.map (fun k => if occursIn k.data tl then (2 : ℤ) else 0)).sum +
           (L.phs.map (fun p => if occursIn p.data tl then (3 : ℤ) else 0)).sum
  if s > 0 then
    some (L.key, s,
      L.kws.filter (fun k => occursIn k.data tl) ++ L.phs.filter (fun p => occursIn p.data tl))
  else none

/-- The `evidence_indicators` table, in dict order. -/
def evidenceIndicators : List (String × String) :=
  [("rct", "established"), ("randomized controlled", "established"),
   ("meta-analysis", "established"), ("systematic review", "established"),
   ("case report", "emerging"), ("case series", "emerging"),
   ("observational", "developing"), ("cohort study", "developing"),
   ("clinical trial", "developing")]

/-- Add `amt` to an existing keyed entry, or append a fresh entry with
the given matched terms (`level_scores[level]["score"] += 2` versus
insertion of `{"score": 2, "matched_terms": [indicator]}`). -/
def bumpIns (key : String) (amt : ℤ) (ts : List String)
    (l : List (String × ℤ × List String)) : List (String × ℤ × List String) :=
  if l.any (fun e => e.1 == key) then
    l.map (fun e => if e.1 == key then (e.1, e.2.1 + amt, e.2.2) else e)
  else l ++ [(key, amt, ts)]

/-- Add `amt` to an existing keyed entry; do nothing when absent. -/
def bumpOnly (key : String) (amt : ℤ)
    (l : List (String × ℤ × List String)) : List (String × ℤ × List String) :=
  l.map (fun e => if e.1 == key then (e.1, e.2.1 + amt, e.2.2) else e)

/-- The `uncertainty_terms` list. -/
def uncertaintyTerms : List String :=
  ["may", "might", "could", "possibly", "potentially",
   "suggests", "appears", "seems", "unclear", "unknown"]

/-- Display name of an evidence level key. -/
def elName (k : String) : String :=
  (((evidenceLevels.find? (fun L => L.key == k)).map (fun L => L.bname))).getD ""

/-- The uncertainty-language count of `suggest_value`. -/
def uncertCount (tl : List Char) : ℕ :=
  uncertaintyTerms.countP (fun t => occursIn t.data tl)

/-- The accumulated `level_scores` dict of
`EvidenceLevelDimension.suggest_value`: keyword/phrase pass, evidence
indicators, then the uncertainty-language adjustment. -/
def evidenceEntries (tl : List Char) : List (String × ℤ × List String) :=
  let entries0 := evidenceLevels.filterMap (elEntry tl)
  let entries1 := evidenceIndicators.foldl (fun acc p =>
    if occursIn p.1.data tl then bumpIns p.2 2 [p.1] acc else acc) entries0
  if uncertCount tl > 3 then bumpOnly "emerging" (uncertCount tl : ℤ) entries1 else entries1

/-- Embedding of `EvidenceLevelDimension.suggest_value`. -/
def evidenceSuggestValue (text : String) : Except PyErr (List DimensionValue) :=
  let tl := lowerL text.data
  let u := uncertCount tl
  match sortDescBy (fun e => e.2.1) (evidenceEntries tl) with
  | [] => .ok []
  | e :: _ =>
    .ok [{ value := .pstr e.1
           confidence := min ((e.2.1 : ℚ) / 10) (8/10)
           source := "nlp"
           metadata := [("name", .pstr (elName e.1)),
                        ("score", .pnum ((e.2.1 : ℤ) : ℚ)),
                        ("matched_terms", .plist e.2.2),
                        ("uncertainty_count", .pnum (u : ℚ))] }]

/-- Embedding of `EvidenceLevelDimension.validate_value` and
`TemporalRelevanceDimension.validate_value`: Python `value in dict`
raises `TypeError` on unhashable values (lists) and otherwise tests key
membership, which only strings can pass. -/
def hashMem (keys : List String) : PyIn → Except PyErr Bool
  | .pylist _ => .error .typeErr
  | .pystr s => .ok (keys.contains s)
  | _ => .ok false

/-! ## Temporal relevance dimension (`temporal_relevance_dimension.py`) -/

/-- A `year_indicators` pattern: a literal substring searched with
`re.search`, or one of the digit patterns `19\d{2}` / `202[lo-hi]`. -/
inductive YPat where
  | lit (s : String)
  | y19
  | y202 (lo hi : Char)
deriving DecidableEq

/-- Does the text start with `19` followed by two digits? -/
def starts19 : List Char → Bool
  | a :: b :: c :: d :: _ => a == '1' && b == '9' && c.isDigit && d.isDigit
  | _ => false

/-- Does the text contain `19` followed by two digits? -/
def has19 : List Char → Bool
  | [] => false
  | c :: rest => starts19 (c :: rest) || has19 rest

/-- Does the text start with `202` followed by a digit in `[lo, hi]`? -/
def starts202 (lo hi : Char) : List Char → Bool
  | a :: b :: c :: d :: _ =>
    a == '2' && b == '0' && c == '2' && decide (lo ≤ d) && decide (d ≤ hi)
  | _ => false

/-- Does the text contain `202` followed by a digit in `[lo, hi]`? -/
def has202 (lo hi : Char) : List Char → Bool
  | [] => false
  | c :: rest => starts202 lo hi (c :: rest) || has202 lo hi rest

/-- Search the lowered text for a year-indicator pattern. -/
def ypMatch (tl : List Char) : YPat → Bool
  | .lit s => occursIn s.data tl
  | .y19 => has19 tl
  | .y202 lo hi => has202 lo hi tl

/-- One entry of `TEMPORAL_CATEGORIES`; each year pattern carries the
`f"year pattern: {pattern}"` label recorded in `matched_terms`. -/
structure TCat where
  key : String
  bname : String
  descr : String
  kws : List String
  yps : List (YPat × String)
deriving DecidableEq

/-- The `TEMPORAL_CATEGORIES` table, in dict order. -/
def temporalCats : List TCat :=
  [⟨"historical", "Historical Context", "Background and evolution of concepts",
    ["history", "historical", "evolution", "originally", "traditionally",
     "classical", "foundation", "pioneered", "discovered"],
    [(.y19, "year pattern: 19\\d\x7b2\x7d"),
     (.lit "early", "year pattern: early"),
     (.lit "first described", "year pattern: first described")]⟩,
   ⟨"current", "Current Standard", "Established current practices and knowledge",
    ["current", "standard", "established", "conventional", "accepted",
     "routine", "typical", "common practice", "guidelines"],
    [(.y202 '0' '3', "year pattern: 202[0-3]"),
     (.lit "recent years", "year pattern: recent years"),
     (.lit "currently", "year pattern: currently")]⟩,
   ⟨"emerging", "Emerging/Cutting-edge", "Latest developments and future directions",
    ["emerging", "cutting-edge", "latest", "novel", "new", "recent",
     "breakthrough", "innovative", "state-of-the-art", "frontier"],
    [(.y202 '4' '5', "year pattern: 202[4-5]"),
     (.lit "just published", "year pattern: just published"),
     (.lit "recently discovered", "year pattern: recently discovered")]⟩,
   ⟨"future", "Future Directions", "Predictions and upcoming developments",
    ["future", "upcoming", "next generation", "potential", "promising",
     "pipeline", "horizon", "prospects", "will be", "may lead to"],
    [(.y202 '6' '9', "year pattern: 202[6-9]"),
     (.lit "next decade", "year pattern: next decade"),
     (.lit "coming years", "year pattern: coming years")]⟩]

/-- Keyword/year-pattern entry of one temporal category: `+2` per
keyword substring, `+3` per matching year pattern; only scores `> 0`
enter the dict. -/
def tcEntry (tl : List Char) (c : TCat) : Option (String × ℤ × List String) :=
  let s := (c.kws.map (fun k => if occursIn k.data tl then (2 : ℤ) else 0)).sum +
           (c.yps.map (fun p => if ypMatch tl p.1 then (3 : ℤ) else 0)).sum
  if s > 0 then
    some (c.key, s,
      c.kws.filter (fun k => occursIn k.data tl) ++
        (c.yps.filter (fun p => ypMatch tl p.1)).map (fun p => p.2))
  else none

/-- Matches of `re.findall(r'\b(19\d{2}|20\d{2})\b', text)` on the raw
text: maximal word runs that are exactly four characters, start with
`19` or `20`, and end with two digits. -/
def yearWords (raw : List Char) : List (List Char) :=
  (runsBy isWordChar raw).filter (fun w =>
    w.length == 4 && (leadMatch ['1', '9'] w || leadMatch ['2', '0'] w) &&
      (w.drop 2).all Char.isDigit)

/-- Integer value of a digit run. -/
def digitsVal (l : List Char) : ℕ := l.foldl (fun a c => a * 10 + (c.toNat - 48)) 0

/-- Display name of a temporal category key. -/
def tcName (k : String) : String :=
  ((temporalCats.find? (fun c => c.key == k)).map (fun c => c.bname)).getD ""

/-- The accumulated `temporal_scores` dict of
`TemporalRelevanceDimension.suggest_value`.  The source reads
`datetime.now().year`; the current year is the explicit parameter
`cy`.  The average-year comparisons `avg < 2000` and
`avg >= current_year - 2` are multiplied out over the positive year
count. -/
def temporalEntries (cy : ℤ) (text : String) : List (String × ℤ × List String) :=
  let tl := lowerL text.data
  let entries0 := temporalCats.filterMap (tcEntry tl)
  let ys : List ℤ := (yearWords text.data).map (fun w => (digitsVal w : ℤ))
  let entries1 :=
    if ys.isEmpty then entries0
    else if ys.sum < 2000 * (ys.length : ℤ) then
      bumpIns "historical" 2 ["old years"] entries0
    else if ys.sum ≥ (cy - 2) * (ys.length : ℤ) then
      bumpIns "emerging" 2 ["recent years"] entries0
    else entries0
  let entries2 :=
    if occursIn "has been".data tl || occursIn "have been".data tl then
      bumpOnly "current" 1 entries1
    else entries1
  if occursIn "will be".data tl || occursIn "may become".data tl then
    bumpOnly "future" 1 entries2
  else entries2

/-- Embedding of `TemporalRelevanceDimension.suggest_value` (the
accumulated dict is `temporalEntries`). -/
def temporalSuggestValue (cy : ℤ) (text : String) : Except PyErr (List DimensionValue) :=
  let years := yearWords text.data
  match firstMaxBy (fun e => e.2.1) (temporalEntries cy text) with
  | some e =>
    .ok [{ value := .pstr e.1
           confidence := min ((e.2.1 : ℚ) / 8) (17/20)
           source := "nlp"
           metadata := [("name", .pstr (tcName e.1)),
                        ("score", .pnum ((e.2.1 : ℤ) : ℚ)),
                        ("matched_terms", .plist e.2.2),
                        ("years_found", .plist (years.map (fun w => String.mk w)))] }]
  | none =>
    .ok [{ value := .pstr "current"
           confidence := 1/2
           source := "rule"
           metadata := [("reason", .pstr "no_temporal_indicators"),
                        ("name", .pstr "Current Standard")] }]

/-! ## Patient population dimension (`patient_population_dimension.py`) -/

/-- The `POPULATIONS` table: key, display name, keywords. -/
def populations : List (String × String × List String) :=
  [("pediatric", "Pediatric",
    ["pediatric", "children", "child", "infant", "adolescent",
     "youth", "teenage", "newborn", "neonatal"]),
   ("adult", "Adult", ["adult", "adults", "middle-aged"]),
   ("geriatric", "Geriatric",
    ["geriatric", "elderly", "older adult", "senior", "aging"]),
   ("maternal", "Maternal/Prenatal",
    ["maternal", "prenatal", "pregnancy", "pregnant", "perinatal",
     "obstetric", "mother", "fetal"]),
   ("general", "General Population",
    ["general population", "all ages", "across lifespan"])]

/-- The keyword pass of `PatientPopulationDimension.suggest_value`:
weight 2 for multi-word keywords, 1 otherwise; only scores `> 0` enter
the dict. -/
def popScores (tl : List Char) : List (String × ℤ × List String) :=
  populations.filterMap (fun p =>
    let s := (p.2.2.map (fun k =>
      if occursIn k.data tl then (if 1 < wordsOf k then (2 : ℤ) else 1) else 0)).sum
    if s > 0 then some (p.1, s, p.2.2.filter (fun k => occursIn k.data tl)) else none)

/-- Embedding of `PatientPopulationDimension.suggest_value`.  The
module never imports `re`, yet the age-pattern loop unconditionally
evaluates `re.findall(pattern, text_lower)` right after the keyword
pass, so every call raises `NameError` (the `try` in that loop covers
only the `int` conversion). -/
def patientPopulationSuggest (text : String) : Except PyErr (List DimensionValue) :=
  let _scores := popScores (lowerL text.data)
  .error .nameErr

/-! ## Application context dimension (`application_context_dimension.py`) -/

/-- One entry of `CONTEXTS`. -/
structure CCat where
  cid : String
  cname : String
  cdescr : String
  kws : List String
deriving DecidableEq

/-- The `CONTEXTS` table, in dict order. -/
def contexts : List CCat :=
  [⟨"clinical-practice", "Clinical Practice", "Direct patient care and treatment",
    ["patient", "treatment", "clinical", "therapy", "diagnosis",
     "management", "care", "practice", "intervention", "protocol"]⟩,
   ⟨"research", "Research", "Scientific investigation and discovery",
    ["research", "study", "investigation", "experiment", "analysis",
     "methodology", "data", "findings", "hypothesis", "evidence"]⟩,
   ⟨"education", "Education", "Teaching and training",
    ["education", "teaching", "training", "learning", "curriculum",
     "student", "course", "tutorial", "workshop", "seminar"]⟩,
   ⟨"laboratory", "Laboratory", "Lab techniques and procedures",
    ["laboratory", "lab", "assay", "technique", "procedure",
     "sample", "test", "measurement", "analysis", "protocol"]⟩,
   ⟨"public-health", "Public Health", "Population health and policy",
    ["public health", "population", "epidemiology", "prevention",
     "screening", "policy", "community", "outbreak", "surveillance"]⟩,
   ⟨"industry", "Industry/Commercial", "Commercial applications and development",
    ["industry", "commercial", "product", "development", "manufacturing",
     "regulatory", "FDA", "approval", "market", "business"]⟩]

/-- Context score at scale 4: `len(keyword.split()) * 1.5` per matched
keyword becomes `6 * wordsOf k`, so the later `* 1.5` boost (applied to
a sum of multiples of 6) stays integral. -/
def ctxScore4 (tl : List Char) (c : CCat) : ℤ :=
  (c.kws.map (fun k => if occursIn k.data tl then 6 * (wordsOf k : ℤ) else 0)).sum

/-- Multiply the score of the named context by 1.5 (exact: scale-4
scores are sums of multiples of 6). -/
def boostCtx (key : String) (l : List (String × ℤ × List String)) :
    List (String × ℤ × List String) :=
  l.map (fun e => if e.1 == key then (e.1, e.2.1 * 3 / 2, e.2.2) else e)

/-- The boosted `context_scores` dict of
`ApplicationContextDimension.suggest_value`. -/
def ctxEntries (tl : List Char) : List (String × ℤ × List String) :=
  let entries0 : List (String × ℤ × List String) :=
    contexts.filterMap (fun c =>
      let s := ctxScore4 tl c
      if s > 0 then some (c.cid, s, c.kws.filter (fun k => occursIn k.data tl)) else none)
  let entries1 :=
    if occursIn "patient".data tl || occursIn "treatment".data tl then
      boostCtx "clinical-practice" entries0
    else entries0
  if occursIn "study".data tl || occursIn "research".data tl then
    boostCtx "research" entries1
  else entries1

/-- The keyword-driven suggestions of
`ApplicationContextDimension.suggest_value`: top 3 sorted contexts with
confidence `min(score / max_score * 0.8, 0.9)`. -/
def ctxSugs (tl : List Char) : List DimensionValue :=
  let sortedC := sortDescBy (fun e => e.2.1) (ctxEntries tl)
  match sortedC with
  | [] => []
  | hd :: _ =>
    (sortedC.take 3).map (fun e =>
      { value := .pstr e.1
        confidence := min ((e.2.1 : ℚ) / (hd.2.1 : ℚ) * (4/5)) (9/10)
        source := "nlp"
        metadata := [("name", .pstr (((contexts.find? (fun c => c.cid == e.1)).map
                        (fun c => c.cname)).getD "")),
                     ("score", .pnum ((e.2.1 : ℤ) : ℚ)),
                     ("matched_keywords", .plist e.2.2)] })

/-- Embedding of `ApplicationContextDimension.suggest_value`. -/
def appContextSuggestValue (text : String) (ctx : Ctx) : Except PyErr (List DimensionValue) :=
  let tl := lowerL text.data
  let sugs := ctxSugs tl
  if sugs.isEmpty && !ctx.isEmpty then
    match ctxGet ctx "presenter_title" with
    | some t =>
      if t ≠ "" then
        let t2 := lowerL t.data
        if occursIn "md".data t2 || occursIn "physician".data t2 then
          .ok [{ value := .pstr "clinical-practice", confidence := 1/2, source := "rule",
                 metadata := [("reason", .pstr "presenter_credentials")] }]
        else if occursIn "phd".data t2 || occursIn "researcher".data t2 then
          .ok [{ value := .pstr "research", confidence := 1/2, source := "rule",
                 metadata := [("reason", .pstr "presenter_credentials")] }]
        else .ok sugs
      else .ok sugs
    | none => .ok sugs
  else .ok sugs

/-! ## Validators (`validate_value` of the remaining dimensions) -/

/-- Decimal parsing of Python `float(str)` for the plain forms
`[ws][+-]digits[.digits][ws]` (scientific notation, infinities and NaN
are omitted; for them `1 <= value <= 10` is false just as for a parse
failure, so `validate_value` agrees).  Result: `(z, k)` with value
`z / 10^k`. -/
def parseDecScaled (l : List Char) : Option (ℤ × ℕ) :=
  let t := ((l.dropWhile pySpace).reverse.dropWhile pySpace).reverse
  let sgn : ℤ := match t with | '-' :: _ => -1 | _ => 1
  let t2 := match t with | '-' :: r => r | '+' :: r => r | _ => t
  let ip := t2.takeWhile Char.isDigit
  match t2.drop ip.length with
  | [] => if ip.isEmpty then none else some (sgn * (digitsVal ip : ℤ), 0)
  | '.' :: fr =>
    if fr.all Char.isDigit && !(ip.isEmpty && fr.isEmpty) then
      some (sgn * ((digitsVal ip : ℤ) * 10 ^ fr.length + (digitsVal fr : ℤ)), fr.length)
    else none
  | _ => none

/-- Integer parsing of Python `int(str)`: `[ws][+-]digits[ws]` only. -/
def parseIntOnly (l : List Char) : Option ℤ :=
  let t := ((l.dropWhile pySpace).reverse.dropWhile pySpace).reverse
  let sgn : ℤ := match t with | '-' :: _ => -1 | _ => 1
  let t2 := match t with | '-' :: r => r | '+' :: r => r | _ => t
  if !t2.isEmpty && t2.all Char.isDigit then some (sgn * (digitsVal t2 : ℤ)) else none

/-- Truncation toward zero (Python `int(float)`); both branches use
division of nonnegative integers, on which every rounding convention
agrees. -/
def ratTrunc (q : ℚ) : ℤ :=
  if 0 ≤ q.num then q.num / (q.den : ℤ) else -((-q.num) / (q.den : ℤ))

/-- Embedding of `ComplexityDimension.validate_value`:
`1 <= float(value) <= 10`, with `TypeError`/`ValueError` from the
conversion caught and turned into `False`. -/
def complexityValidate : PyIn → Bool
  | .pyint n => decide (1 ≤ n ∧ n ≤ 10)
  | .pyfloat q => decide (1 ≤ q ∧ q ≤ 10)
  | .pybool b => b
  | .pystr s =>
    match parseDecScaled s.data with
    | some (z, k) => decide ((10 : ℤ) ^ k ≤ z ∧ z ≤ 10 ^ (k + 1))
    | none => false
  | .pynone => false
  | .pylist _ => false

/-- Embedding of `ApproachTypeDimension.validate_value`:
`1 <= int(value) <= 5`, conversion failures caught. -/
def approachValidate : PyIn → Bool
  | .pyint n => decide (1 ≤ n ∧ n ≤ 5)
  | .pyfloat q => decide (1 ≤ ratTrunc q ∧ ratTrunc q ≤ 5)
  | .pybool b => b
  | .pystr s =>
    match parseIntOnly s.data with
    | some n => decide (1 ≤ n ∧ n ≤ 5)
    | none => false
  | .pynone => false
  | .pylist _ => false

/-- Membership of each list element in the catalog keys, with the
short-circuit of Python `all(v in KEYS for v in value)`: a non-member
returns `False` before later elements are hashed, and an unhashable
element (a list) raises `TypeError`. -/
def allMemK (keys : List String) : List PyIn → Except PyErr Bool
  | [] => .ok true
  | .pylist _ :: _ => .error .typeErr
  | .pystr s :: rest => if keys.contains s then allMemK keys rest else .ok false
  | _ :: _ => .ok false

/-- Embedding of `validate_value` for the population and application
context dimensions: a string is looked up in the catalog, a list is
checked elementwise, anything else is invalid. -/
def strOrListMem (keys : List String) : PyIn → Except PyErr Bool
  | .pystr s => .ok (keys.contains s)
  | .pylist l => allMemK keys l
  | _ => .ok false

/-- Catalog keys of the evidence dimension. -/
def evidenceKeys : List String := evidenceLevels.map (fun L => L.key)

/-- Catalog keys of the temporal dimension. -/
def temporalKeys : List String := temporalCats.map (fun c => c.key)

/-- Catalog keys of the population dimension. -/
def popKeys : List String := populations.map (fun p => p.1)

/-- Catalog keys of the application context dimension. -/
def contextKeys : List String := contexts.map (fun c => c.cid)

/-! ## Registry and dispatch (`dimensions/__init__.py`) -/

/-- The dimension classes registered in `DIMENSION_REGISTRY`.
`learningModality` is modelled from the spec: `__init__.py` imports
`LearningModalityDimension` from `learning_modality_dimension.py`,
whose source is not in the tree; per the spec the registry maps each
dimension name to a ready-to-use dimension instance. -/
inductive DimTag where
  | topics
  | complexity
  | applicationContext
  | approachType
  | evidenceLevel
  | patientPopulation
  | temporalRelevance
  | learningModality
deriving DecidableEq

/-- The `DIMENSION_REGISTRY` dict, in insertion order. -/
def registryPairs : List (String × DimTag) :=
  [("topics", .topics),
   ("complexity", .complexity),
   ("application_context", .applicationContext),
   ("approach_type", .approachType),
   ("evidence_level", .evidenceLevel),
   ("patient_population", .patientPopulation),
   ("temporal_relevance", .temporalRelevance),
   ("learning_modality", .learningModality)]

/-- Embedding of `get_dimension`: `DIMENSION_REGISTRY.get(name)`, and
`raise ValueError(f"Unknown dimension: {name}")` when absent. -/
def getDimension (name : String) : Except PyErr DimTag :=
  match registryPairs.find? (fun p => p.1 == name) with
  | some p => .ok p.2
  | none => .error (.valueErr ("Unknown dimension: " ++ name))

/-- Is a name registered? -/
def isRegistered (name : String) : Bool := registryPairs.any (fun p => p.1 == name)

/-- The seven dimensions whose implementations are in the source tree
(the spec's dimension list: topic, complexity, application context,
theory/practice balance, evidence maturity, target population,
temporal relevance). -/
inductive Dim where
  | topics
  | complexity
  | applicationContext
  | approachType
  | evidenceLevel
  | patientPopulation
  | temporalRelevance
deriving DecidableEq

/-- Uniform `suggest_value` interface.  `cy` is the wall-clock year
read by `datetime.now().year`; only the temporal dimension consults
it. -/
def suggestValue (d : Dim) (cy : ℤ) (text : String) (ctx : Ctx) :
    Except PyErr (List DimensionValue) :=
  match d with
  | .topics => topicSuggestValue text
  | .complexity => complexitySuggestValue text
  | .applicationContext => appContextSuggestValue text ctx
  | .approachType => approachSuggestValue text
  | .evidenceLevel => evidenceSuggestValue text
  | .patientPopulation => patientPopulationSuggest text
  | .temporalRelevance => temporalSuggestValue cy text

/-- Uniform `validate_value` interface. -/
def validateValue (d : Dim) (v : PyIn) : Except PyErr Bool :=
  match d with
  | .topics => .ok (topicValidate v)
  | .complexity => .ok (complexityValidate v)
  | .applicationContext => strOrListMem contextKeys v
  | .approachType => .ok (approachValidate v)
  | .evidenceLevel => hashMem evidenceKeys v
  | .patientPopulation => strOrListMem popKeys v
  | .temporalRelevance => hashMem temporalKeys v

/-! ## Projections used by the theorems -/

/-- Values of a successful suggestion list. -/
def okVals : Except PyErr (List DimensionValue) → Option (List PVal)
  | .ok l => some (l.map (fun v => v.value))
  | .error _ => none

/-- Confidences of a successful suggestion list. -/
def okConfs : Except PyErr (List DimensionValue) → Option (List ℚ)
  | .ok l => some (l.map (fun v => v.confidence))
  | .error _ => none

/-- Sources of a successful suggestion list. -/
def okSrcs : Except PyErr (List DimensionValue) → Option (List String)
  | .ok l => some (l.map (fun v => v.source))
  | .error _ => none

/-- Metadata entry of one value. -/
def metaOf (v : DimensionValue) (k : String) : Option PVal :=
  (v.metadata.find? (fun p => p.1 == k)).map (fun p => p.2)

/-- The `keywords_matched` list of the first suggestion. -/
def headKwList : Except PyErr (List DimensionValue) → List String
  | .ok (v :: _) =>
    match metaOf v "keywords_matched" with
    | some (.plist l) => l
    | _ => []
  | _ => []

/-- The `score` metadata entry of a value, as a rational. -/
def scoreM (v : DimensionValue) : ℚ :=
  match metaOf v "score" with
  | some (.pnum q) => q
  | _ => 0

/-- Confidence of the first suggestion. -/
def headConf : Except PyErr (List DimensionValue) → Option ℚ
  | .ok (v :: _) => some v.confidence
  | _ => none

/-- The `score` metadata entries of a successful suggestion list. -/
def okScores : Except PyErr (List DimensionValue) → Option (List ℚ)
  | .ok l => some (l.map scoreM)
  | .error _ => none

/-- The claim formula for a topic node's accumulated score, written
directly in the rationals: per indexed key occurring in the text,
`occurrence_count × (1 + 0.2 × node_depth)`, plus `+1` per firing
regex stem pattern that lists the node. -/
def specTopicScore (tl : List Char) (n : NodeInfo) : ℚ :=
  ((nodeKeysL n).map (fun k =>
    if occursIn k tl then (scanCount k tl : ℚ) * (1 + (n.depth : ℚ) * (1/5)) else 0)).sum +
  (medicalStems.map (fun p =>
    if stemSearch p.1.data tl && p.2.contains n.id then (1 : ℚ) else 0)).sum

/-- Elementwise nonnegativity of the accumulated score lists. -/
def NonnegSnd {α β : Type} (l : List (α × ℤ × β)) : Prop := ∀ e ∈ l, 0 ≤ e.2.1

/-- The flattened record of the `asd` taxonomy node. -/
def asdInfo : NodeInfo :=
  ⟨"asd", "Autism Spectrum Disorders",
   ["autism", "asd", "autistic", "spectrum disorder"],
   ["autism spectrum", "autistic disorder"], 3,
   ["Root", "Clinical Domains", "Neurological Conditions", "Autism Spectrum Disorders"]⟩

/-- The flattened record of the `cdr` taxonomy node. -/
def cdrInfo : NodeInfo :=
  ⟨"cdr", "Cell Danger Response",
   ["cell danger", "CDR", "danger response", "naviaux"], [], 2,
   ["Root", "Theoretical Frameworks", "Cell Danger Response"]⟩

/-- The single suggestion `TopicDimension.suggest_value` returns for
the text `"autism"`. -/
def autismTopicVal : DimensionValue :=
  { value := .pstr "asd"
    confidence := min ((((13 : ℤ)) : ℚ) / (((13 : ℤ)) : ℚ)) 1 * (9 / 10)
    source := "nlp"
    metadata := [("path", .plist ["Root", "Clinical Domains", "Neurological Conditions",
                    "Autism Spectrum Disorders"]),
                 ("score", .pnum ((((13 : ℤ)) : ℚ) / 5)),
                 ("keywords_matched", .plist ["autism"])] }

/-- The default suggestion of the temporal dimension when no indicator
matches. -/
def tempDefaultVal : DimensionValue :=
  { value := .pstr "current"
    confidence := 1/2
    source := "rule"
    metadata := [("reason", .pstr "no_temporal_indicators"),
                 ("name", .pstr "Current Standard")] }

/-! ## Auxiliary lemmas -/

lemma mem_insDescBy {α : Type} (f : α → ℤ) (x a : α) (l : List α) :
    a ∈ insDescBy f x l ↔ a = x ∨ a ∈ l := by
  induction l with
  | nil => simp [insDescBy]
  | cons y ys ih =>
    simp only [insDescBy]
    split
    · simp [List.mem_cons]
    · simp only [List.mem_cons, ih]
      tauto

lemma pairwise_insDescBy {α : Type} (f : α → ℤ) (x : α) (l : List α)
    (h : l.Pairwise (fun a b => f b ≤ f a)) :
    (insDescBy f x l).Pairwise (fun a b => f b ≤ f a) := by
  induction l with
  | nil => simp [insDescBy]
  | cons y ys ih =>
    rcases List.pairwise_cons.1 h with ⟨hy, hys⟩
    simp only [insDescBy]
    split
    · rename_i hgt
      refine List.Pairwise.cons ?_ h
      intro z hz
      rcases List.mem_cons.1 hz with rfl | hz'
      · omega
      · have := hy z hz'
        omega
    · rename_i hle
      refine List.Pairwise.cons ?_ (ih hys)
      intro z hz
      rcases (mem_insDescBy f x z ys).1 hz with rfl | hz'
      · omega
      · exact hy z hz'

lemma foldl_insDescBy_mem {α : Type} (f : α → ℤ) (l : List α) :
    ∀ (acc : List α) (a : α),
      (a ∈ l.foldl (fun acc x => insDescBy f x acc) acc ↔ a ∈ acc ∨ a ∈ l) := by
  induction l with
  | nil => intro acc a; simp
  | cons x xs ih =>
    intro acc a
    simp only [List.foldl_cons, ih, mem_insDescBy, List.mem_cons]
    tauto

lemma mem_sortDescBy {α : Type} (f : α → ℤ) (l : List α) (a : α) :
    a ∈ sortDescBy f l ↔ a ∈ l := by
  simp [sortDescBy, foldl_insDescBy_mem]

lemma foldl_insDescBy_pairwise {α : Type} (f : α → ℤ) (l : List α) :
    ∀ acc : List α, acc.Pairwise (fun a b => f b ≤ f a) →
      (l.foldl (fun acc x => insDescBy f x acc) acc).Pairwise (fun a b => f b ≤ f a) := by
  induction l with
  | nil => intro acc h; simpa using h
  | cons x xs ih =>
    intro acc h
    exact ih _ (pairwise_insDescBy f x acc h)

lemma sortDescBy_pairwise {α : Type} (f : α → ℤ) (l : List α) :
    (sortDescBy f l).Pairwise (fun a b => f b ≤ f a) :=
  foldl_insDescBy_pairwise f l [] (by simp)

lemma foldl_max_mem {α : Type} (f : α → ℤ) :
    ∀ (zs : List α) (b : α),
      zs.foldl (fun b y => if f y > f b then y else b) b = b ∨
        zs.foldl (fun b y => if f y > f b then y else b) b ∈ zs := by
  intro zs
  induction zs with
  | nil => intro b; left; rfl
  | cons z zs ih =>
    intro b
    simp only [List.foldl_cons]
    rcases ih (if f z > f b then z else b) with h | h
    · rw [h]
      split
      · right; exact List.mem_cons_self _ _
      · left; rfl
    · right; exact List.mem_cons_of_mem _ h

lemma firstMaxBy_mem {α : Type} (f : α → ℤ) (l : List α) (x : α)
    (h : firstMaxBy f l = some x) : x ∈ l := by
  cases l with
  | nil => simp [firstMaxBy] at h
  | cons y ys =>
    simp only [firstMaxBy, Option.some.injEq] at h
    subst h
    rcases foldl_max_mem f ys y with h | h
    · rw [h]; exact List.mem_cons_self _ _
    · exact List.mem_cons_of_mem _ h

lemma sum_map_ite_nonneg {α : Type} (l : List α) (p : α → Bool) (g : α → ℤ)
    (hg : ∀ a ∈ l, 0 ≤ g a) :
    0 ≤ (l.map (fun a => if p a then g a else 0)).sum := by
  apply List.sum_nonneg
  intro x hx
  rcases List.mem_map.1 hx with ⟨a, ha, rfl⟩
  split
  · exact hg a ha
  · exact le_refl 0

lemma topicScore5_nonneg (tl : List Char) (n : NodeInfo) : 0 ≤ topicScore5 tl n := by
  unfold topicScore5 topicKwScore5 topicPatScore5
  apply add_nonneg
  · apply sum_map_ite_nonneg
    intro a _
    apply mul_nonneg
    · exact Int.natCast_nonneg _
    · have : (0 : ℤ) ≤ (n.depth : ℤ) := Int.natCast_nonneg _
      omega
  · apply sum_map_ite_nonneg
    intro a _
    norm_num

lemma nonnegSnd_ite {α β : Type} (c : Prop) [Decidable c] (l1 l2 : List (α × ℤ × β))
    (h1 : NonnegSnd l1) (h2 : NonnegSnd l2) : NonnegSnd (if c then l1 else l2) := by
  split <;> assumption

lemma nonnegSnd_bumpIns (key : String) (amt : ℤ) (ts : List String)
    (l : List (String × ℤ × List String)) (hamt : 0 ≤ amt) (h : NonnegSnd l) :
    NonnegSnd (bumpIns key amt ts l) := by
  intro e he
  unfold bumpIns at he
  split at he
  · rcases List.mem_map.1 he with ⟨e', he', heq⟩
    by_cases hk : e'.1 == key
    · simp only [hk, if_pos] at heq
      subst heq
      have := h e' he'
      simp only
      omega
    · simp only [hk] at heq
      simp only [Bool.false_eq_true, if_false] at heq
      subst heq
      exact h e' he'
  · rcases List.mem_append.1 he with he' | he'
    · exact h e he'
    · simp only [List.mem_singleton] at he'
      subst he'
      simpa using hamt

lemma nonnegSnd_bumpOnly (key : String) (amt : ℤ)
    (l : List (String × ℤ × List String)) (hamt : 0 ≤ amt) (h : NonnegSnd l) :
    NonnegSnd (bumpOnly key amt l) := by
  intro e he
  unfold bumpOnly at he
  rcases List.mem_map.1 he with ⟨e', he', heq⟩
  by_cases hk : e'.1 == key
  · simp only [hk, if_pos] at heq
    subst heq
    have := h e' he'
    simp only
    omega
  · simp only [hk] at heq
    simp only [Bool.false_eq_true, if_false] at heq
    subst heq
    exact h e' he'

lemma nonnegSnd_elEntries (tl : List Char) :
    NonnegSnd (evidenceLevels.filterMap (elEntry tl)) := by
  intro e he
  rcases List.mem_filterMap.1 he with ⟨L, _, hsome⟩
  unfold elEntry at hsome
  simp only [] at hsome
  split at hsome
  · rename_i hs
    injection hsome with hsome
    subst hsome
    simp only
    omega
  · exact absurd hsome (by simp)

lemma nonnegSnd_evidenceFold (tl : List Char) (ps : List (String × String)) :
    ∀ l : List (String × ℤ × List String), NonnegSnd l →
      NonnegSnd (ps.foldl (fun acc p =>
        if occursIn p.1.data tl then bumpIns p.2 2 [p.1] acc else acc) l) := by
  induction ps with
  | nil => intro l h; simpa using h
  | cons p ps ih =>
    intro l h
    simp only [List.foldl_cons]
    apply ih
    split
    · exact nonnegSnd_bumpIns _ _ _ _ (by norm_num) h
    · exact h

lemma nonnegSnd_evidenceEntries (tl : List Char) : NonnegSnd (evidenceEntries tl) := by
  unfold evidenceEntries
  apply nonnegSnd_ite
  · apply nonnegSnd_bumpOnly _ _ _ (Int.natCast_nonneg _)
    exact nonnegSnd_evidenceFold tl _ _ (nonnegSnd_elEntries tl)
  · exact nonnegSnd_evidenceFold tl _ _ (nonnegSnd_elEntries tl)

lemma nonnegSnd_tcEntries (tl : List Char) :
    NonnegSnd (temporalCats.filterMap (tcEntry tl)) := by
  intro e he
  rcases List.mem_filterMap.1 he with ⟨c, _, hsome⟩
  unfold tcEntry at hsome
  simp only [] at hsome
  split at hsome
  · rename_i hs
    injection hsome with hsome
    subst hsome
    simp only
    omega
  · exact absurd hsome (by simp)

lemma nonnegSnd_temporalEntries (cy : ℤ) (text : String) :
    NonnegSnd (temporalEntries cy text) := by
  unfold temporalEntries
  have h0 := nonnegSnd_tcEntries (lowerL text.data)
  have h1 : NonnegSnd (if ((yearWords text.data).map (fun w => (digitsVal w : ℤ))).isEmpty
      then temporalCats.filterMap (tcEntry (lowerL text.data))
      else if (((yearWords text.data).map (fun w => (digitsVal w : ℤ))).sum <
            2000 * ((((yearWords text.data).map (fun w => (digitsVal w : ℤ)))).length : ℤ)) then
        bumpIns "historical" 2 ["old years"] (temporalCats.filterMap (tcEntry (lowerL text.data)))
      else if (((yearWords text.data).map (fun w => (digitsVal w : ℤ))).sum ≥
            (cy - 2) * ((((yearWords text.data).map (fun w => (digitsVal w : ℤ)))).length : ℤ)) then
        bumpIns "emerging" 2 ["recent years"] (temporalCats.filterMap (tcEntry (lowerL text.data)))
      else temporalCats.filterMap (tcEntry (lowerL text.data))) := by
    apply nonnegSnd_ite _ _ _ h0
    apply nonnegSnd_ite
    · exact nonnegSnd_bumpIns _ _ _ _ (by norm_num) h0
    · apply nonnegSnd_ite
      · exact nonnegSnd_bumpIns _ _ _ _ (by norm_num) h0
      · exact h0
  apply nonnegSnd_ite
  · apply nonnegSnd_bumpOnly _ _ _ (by norm_num)
    apply nonnegSnd_ite
    · exact nonnegSnd_bumpOnly _ _ _ (by norm_num) h1
    · exact h1
  · apply nonnegSnd_ite
    · exact nonnegSnd_bumpOnly _ _ _ (by norm_num) h1
    · exact h1

lemma nonnegSnd_boostBands (keys : List String) (l : List (ABand × ℤ × List String))
    (h : NonnegSnd l) : NonnegSnd (boostBands keys l) := by
  intro e he
  unfold boostBands at he
  rcases List.mem_map.1 he with ⟨e', he', heq⟩
  by_cases hk : keys.contains e'.1.key
  · simp only [hk, if_pos] at heq
    subst heq
    have := h e' he'
    simp only
    positivity
  · simp only [hk] at heq
    simp only [Bool.false_eq_true, if_false] at heq
    subst heq
    exact h e' he'

lemma nonnegSnd_approachEntries (tl : List Char) : NonnegSnd (approachEntries tl) := by
  unfold approachEntries
  have h0 : NonnegSnd (approachSpectrum.filterMap (fun b =>
      let s := bandScore2 tl b
      if s > 0 then some (b, s, b.kws.filter (fun k => occursIn k.data tl)) else none)) := by
    intro e he
    rcases List.mem_filterMap.1 he with ⟨b, _, hsome⟩
    simp only [] at hsome
    split at hsome
    · rename_i hs
      injection hsome with hsome
      subst hsome
      simp only
      omega
    · exact absurd hsome (by simp)
  apply nonnegSnd_ite
  · exact nonnegSnd_boostBands _ _ h0
  · apply nonnegSnd_ite
    · exact nonnegSnd_boostBands _ _ h0
    · exact h0

lemma nonnegSnd_boostCtx (key : String) (l : List (String × ℤ × List String))
    (h : NonnegSnd l) : NonnegSnd (boostCtx key l) := by
  intro e he
  unfold boostCtx at he
  rcases List.mem_map.1 he with ⟨e', he', heq⟩
  by_cases hk : e'.1 == key
  · simp only [hk, if_pos] at heq
    subst heq
    have := h e' he'
    simp only
    positivity
  · simp only [hk] at heq
    simp only [Bool.false_eq_true, if_false] at heq
    subst heq
    exact h e' he'

lemma nonnegSnd_ctxEntries (tl : List Char) : NonnegSnd (ctxEntries tl) := by
  unfold ctxEntries
  have h0 : NonnegSnd (contexts.filterMap (fun c =>
      let s := ctxScore4 tl c
      if s > 0 then some (c.cid, s, c.kws.filter (fun k => occursIn k.data tl)) else none)) := by
    intro e he
    rcases List.mem_filterMap.1 he with ⟨c, _, hsome⟩
    simp only [] at hsome
    split at hsome
    · rename_i hs
      injection hsome with hsome
      subst hsome
      simp only
      omega
    · exact absurd hsome (by simp)
  have h1 : NonnegSnd (if occursIn "patient".data tl || occursIn "treatment".data tl then
      boostCtx "clinical-practice" (contexts.filterMap (fun c =>
        let s := ctxScore4 tl c
        if s > 0 then some (c.cid, s, c.kws.filter (fun k => occursIn k.data tl)) else none))
      else contexts.filterMap (fun c =>
        let s := ctxScore4 tl c
        if s > 0 then some (c.cid, s, c.kws.filter (fun k => occursIn k.data tl)) else none)) := by
    apply nonnegSnd_ite
    · exact nonnegSnd_boostCtx _ _ h0
    · exact h0
  apply nonnegSnd_ite
  · exact nonnegSnd_boostCtx _ _ h1
  · exact h1

lemma ctxSugs_bounds (tl : List Char) (w : DimensionValue) (hw : w ∈ ctxSugs tl) :
    0 ≤ w.confidence ∧ w.confidence ≤ 1 := by
  unfold ctxSugs at hw
  simp only [] at hw
  split at hw
  · exact absurd hw (List.not_mem_nil w)
  · rename_i hd tail heq
    rcases List.mem_map.1 hw with ⟨e, he, rfl⟩
    have he' : e ∈ ctxEntries tl :=
      (mem_sortDescBy _ _ _).1 (List.mem_of_mem_take he)
    have hd' : hd ∈ ctxEntries tl := by
      apply (mem_sortDescBy _ _ _).1
      rw [heq]
      exact List.mem_cons_self _ _
    have hse := nonnegSnd_ctxEntries tl e he'
    have hsd := nonnegSnd_ctxEntries tl hd hd'
    refine ⟨?_, ?_⟩
    · dsimp only
      apply le_min
      · apply mul_nonneg
        · apply div_nonneg
          · exact_mod_cast hse
          · exact_mod_cast hsd
        · norm_num
      · norm_num
    · dsimp only
      have := min_le_right ((e.2.1 : ℚ) / (hd.2.1 : ℚ) * (4/5)) ((9:ℚ)/10)
      linarith

/-- C4: for every dimension, every clock year and every input (text,
context), every `DimensionValue` produced by a successful
`suggest_value` call has a confidence lying in the closed interval
[0, 1]. -/
theorem c4_confidence_bounds (d : Dim) (cy : ℤ) (text : String) (ctx : Ctx)
    (vs : List DimensionValue) (v : DimensionValue)
    (hok : suggestValue d cy text ctx = .ok vs) (hv : v ∈ vs) :
    0 ≤ v.confidence ∧ v.confidence ≤ 1 := by
  cases d
  case topics =>
    simp only [suggestValue] at hok
    unfold topicSuggestValue at hok
    simp only [] at hok
    split at hok
    · injection hok with hok
      subst hok
      exact absurd hv (List.not_mem_nil v)
    · rename_i top tail heq
      split at hok
      · exact Except.noConfusion hok
      · injection hok with hok
        subst hok
        rcases List.mem_map.1 hv with ⟨n, hn, rfl⟩
        refine ⟨?_, ?_⟩
        · dsimp only
          apply mul_nonneg
          · apply le_min
            · apply div_nonneg
              · exact_mod_cast topicScore5_nonneg _ n
              · exact_mod_cast topicScore5_nonneg _ top
            · norm_num
          · norm_num
        · dsimp only
          have h1 := min_le_right
            ((topicScore5 (lowerL text.data) n : ℚ) / (topicScore5 (lowerL text.data) top : ℚ))
            (1 : ℚ)
          have h0 : (0:ℚ) ≤ min
            ((topicScore5 (lowerL text.data) n : ℚ) / (topicScore5 (lowerL text.data) top : ℚ))
            (1 : ℚ) := by
            apply le_min
            · apply div_nonneg
              · exact_mod_cast topicScore5_nonneg _ n
              · exact_mod_cast topicScore5_nonneg _ top
            · norm_num
          nlinarith
  case complexity =>
    simp only [suggestValue] at hok
    unfold complexitySuggestValue at hok
    simp only [] at hok
    repeat' split at hok
    all_goals (injection hok with hok; subst hok)
    all_goals
      first
      | exact absurd hv (List.not_mem_nil v)
      | (rcases List.mem_singleton.1 hv with rfl
         exact ⟨by norm_num, by norm_num⟩)
  case applicationContext =>
    simp only [suggestValue] at hok
    unfold appContextSuggestValue at hok
    simp only [] at hok
    repeat' split at hok
    all_goals (injection hok with hok; subst hok)
    all_goals
      first
      | exact absurd hv (List.not_mem_nil v)
      | exact ctxSugs_bounds _ v hv
      | (rcases List.mem_singleton.1 hv with rfl
         exact ⟨by norm_num, by norm_num⟩)
  case approachType =>
    simp only [suggestValue] at hok
    unfold approachSuggestValue at hok
    simp only [] at hok
    split at hok
    · injection hok with hok
      subst hok
      rcases List.mem_singleton.1 hv with rfl
      exact ⟨by norm_num, by norm_num⟩
    · injection hok with hok
      subst hok
      rcases List.mem_singleton.1 hv with rfl
      exact ⟨by norm_num, by norm_num⟩
  case evidenceLevel =>
    simp only [suggestValue] at hok
    unfold evidenceSuggestValue at hok
    simp only [] at hok
    split at hok
    · injection hok with hok
      subst hok
      exact absurd hv (List.not_mem_nil v)
    · rename_i e tail heq
      injection hok with hok
      subst hok
      rcases List.mem_singleton.1 hv with rfl
      have he : e ∈ evidenceEntries (lowerL text.data) := by
        apply (mem_sortDescBy _ _ _).1
        rw [heq]
        exact List.mem_cons_self _ _
      have hse := nonnegSnd_evidenceEntries (lowerL text.data) e he
      refine ⟨?_, ?_⟩
      · dsimp only
        apply le_min
        · apply div_nonneg
          · exact_mod_cast hse
          · norm_num
        · norm_num
      · dsimp only
        have := min_le_right ((e.2.1 : ℚ) / 10) ((8:ℚ)/10)
        linarith
  case patientPopulation =>
    simp only [suggestValue] at hok
    unfold patientPopulationSuggest at hok
    exact Except.noConfusion hok
  case temporalRelevance =>
    simp only [suggestValue] at hok
    unfold temporalSuggestValue at hok
    simp only [] at hok
    split at hok
    · rename_i e heq
      injection hok with hok
      subst hok
      rcases List.mem_singleton.1 hv with rfl
      have he : e ∈ temporalEntries cy text := firstMaxBy_mem _ _ _ heq
      have hse := nonnegSnd_temporalEntries cy text e he
      refine ⟨?_, ?_⟩
      · dsimp only
        apply le_min
        · apply div_nonneg
          · exact_mod_cast hse
          · norm_num
        · norm_num
      · dsimp only
        have := min_le_right ((e.2.1 : ℚ) / 8) ((17:ℚ)/20)
        linarith
    · injection hok with hok
      subst hok
      rcases List.mem_singleton.1 hv with rfl
      exact ⟨by norm_num, by norm_num⟩

/-! ## Claim theorems -/

/-- C1: the claim says no failure inside the engine is fatal — for
every input text and every registered dimension, `suggest_value`
returns a list and never raises.  The code violates this twice:
`patient_population_dimension.py` never imports `re` yet calls
`re.findall` unconditionally, so its `suggest_value` raises `NameError`
on every input; and `TopicDimension.suggest_value` raises
`ZeroDivisionError` whenever the top accumulated score is `0.0`, e.g.
on the text `"spectrum disorders"` (the keyword `"spectrum disorder"`
matches as a substring, but its `\b`-bounded occurrence count is 0). -/
theorem c1_failures_raise :
    (∀ (cy : ℤ) (text : String) (ctx : Ctx),
      suggestValue .patientPopulation cy text ctx = .error .nameErr) ∧
    suggestValue .topics 2025 "spectrum disorders" [] = .error .zeroDivErr :=
  ⟨fun _ _ _ => rfl, rfl⟩

/-- C2 counterexample: the claim says every dimension returns an empty
suggestion list on empty/too-short text, but the approach-type
dimension returns its deliberate "balanced" default on the empty
string. -/
theorem c2_counterexample :
    suggestValue .approachType 2025 "" [] =
      .ok [{ value := .pnum 3, confidence := 2/5, source := "nlp",
             metadata := [("approach", .pstr "balanced"), ("name", .pstr "Balanced"),
                          ("reason", .pstr "no_clear_indicators")] }] ∧
    suggestValue .approachType 2025 "" [] ≠ .ok [] := by
  refine ⟨rfl, fun h => ?_⟩
  rw [(rfl : suggestValue .approachType 2025 "" [] =
    .ok [{ value := .pnum 3, confidence := 2/5, source := "nlp",
           metadata := [("approach", .pstr "balanced"), ("name", .pstr "Balanced"),
                        ("reason", .pstr "no_clear_indicators")] }])] at h
  injection h with h
  exact List.noConfusion h

/-- C2 amended: there is no minimum-length threshold in the code.  On
the empty string the topic, evidence-level and application-context
dimensions (the latter without presenter context) return an empty
list; the complexity, approach-type and temporal-relevance dimensions
return a single default suggestion instead; and the patient-population
dimension raises `NameError`. -/
theorem c2_amended (cy : ℤ) :
    suggestValue .topics cy "" [] = .ok [] ∧
    suggestValue .evidenceLevel cy "" [] = .ok [] ∧
    suggestValue .applicationContext cy "" [] = .ok [] ∧
    suggestValue .patientPopulation cy "" [] = .error .nameErr ∧
    okVals (suggestValue .complexity cy "" []) = some [.pnum 1] ∧
    okConfs (suggestValue .complexity cy "" []) = some [7/10] ∧
    okSrcs (suggestValue .complexity cy "" []) = some ["nlp"] ∧
    okVals (suggestValue .approachType cy "" []) = some [.pnum 3] ∧
    okConfs (suggestValue .approachType cy "" []) = some [2/5] ∧
    okVals (suggestValue .temporalRelevance cy "" []) = some [.pstr "current"] ∧
    okConfs (suggestValue .temporalRelevance cy "" []) = some [1/2] ∧
    okSrcs (suggestValue .temporalRelevance cy "" []) = some ["rule"] := by
  refine ⟨rfl, rfl, rfl, rfl, ?_, rfl, rfl, rfl, rfl, rfl, rfl, rfl⟩
  calc okVals (suggestValue .complexity cy "" [])
      = some [.pnum ((((2 : ℤ)) : ℚ) / 2)] := rfl
    _ = some [.pnum 1] := by norm_num

/-- C3: the claim says `validate_value` never throws for any input,
including unhashable values, and that is the documented contract
(spec §4.1 "Must not throw").  The code violates it: the evidence and
temporal dimensions evaluate `value in <dict>`, which raises
`TypeError` on an unhashable value such as `[]`, and the population
dimension's elementwise check does the same for an unhashable list
element.  (Hashable invalid inputs do yield `False`.) -/
theorem c3_validate_unhashable_raises :
    validateValue .evidenceLevel (.pylist []) = .error .typeErr ∧
    validateValue .temporalRelevance (.pylist []) = .error .typeErr ∧
    validateValue .patientPopulation (.pylist [.pylist []]) = .error .typeErr ∧
    validateValue .evidenceLevel .pynone = .ok false ∧
    validateValue .evidenceLevel (.pystr "established") = .ok true ∧
    validateValue .complexity (.pylist []) = .ok false :=
  ⟨rfl, rfl, rfl, rfl, rfl, rfl⟩

/-- C4 witness: the bounds applied to the temporal dimension's default
suggestion on the empty string. -/
theorem c4_confidence_bounds_witness :
    0 ≤ tempDefaultVal.confidence ∧ tempDefaultVal.confidence ≤ 1 :=
  c4_confidence_bounds .temporalRelevance 2025 "" [] [tempDefaultVal] tempDefaultVal rfl
    (List.mem_singleton.mpr rfl)

/-- C7: the claim says a syntactically well-formed but nonexistent
path — in particular one whose first segment is not the root — must
fail validation, and `_validate_path`'s own docstring says it checks
that the path exists in the taxonomy.  The code skips the first
segment entirely (`for segment in path[1:]`), so `["Bogus", "Clinical
Domains"]`, `["Bogus"]` and even `[]` all validate; only the segments
after the first are matched against children (last two conjuncts show
the contrast). -/
theorem c7_first_segment_unchecked :
    topicValidate (.pylist [.pystr "Bogus", .pystr "Clinical Domains"]) = true ∧
    topicValidate (.pylist [.pystr "Bogus"]) = true ∧
    topicValidate (.pylist []) = true ∧
    topicValidate (.pylist [.pystr "Root", .pystr "Bogus"]) = false ∧
    topicValidate (.pylist [.pystr "Root", .pystr "Clinical Domains",
      .pystr "Neurological Conditions"]) = true :=
  ⟨rfl, rfl, rfl, rfl, rfl⟩

/-- C8: registry lookup fails with an explicit `ValueError` exactly
for unregistered names, with a message determined by the name alone,
and returns a dimension instance for every registered name. -/
theorem c8_registry_lookup (name : String) :
    (isRegistered name = false →
      getDimension name = .error (.valueErr ("Unknown dimension: " ++ name))) ∧
    (isRegistered name = true → ∃ t, getDimension name = .ok t) ∧
    (∀ t, getDimension name = .ok t → (name, t) ∈ registryPairs) := by
  unfold getDimension isRegistered
  cases hf : registryPairs.find? (fun p => p.1 == name) with
  | none =>
    refine ⟨fun _ => rfl, fun h => ?_, fun t ht => Except.noConfusion ht⟩
    rcases List.any_eq_true.1 h with ⟨p, hp, hpn⟩
    have := List.find?_eq_none.1 hf p hp
    exact absurd hpn this
  | some p =>
    have hm := List.mem_of_find?_eq_some hf
    have he : p.1 = name := by
      have := List.find?_some hf
      exact eq_of_beq this
    refine ⟨fun h => ?_, fun _ => ⟨p.2, rfl⟩, fun t ht => ?_⟩
    · rw [List.any_eq_false] at h
      exact absurd (by simp [he]) (h p hm)
    · injection ht with ht
      subst ht
      subst he
      exact hm

/-- C8 witness: lookup of an unregistered and of a registered name. -/
theorem c8_registry_lookup_witness :
    getDimension "bogus" = .error (.valueErr ("Unknown dimension: " ++ "bogus")) ∧
    ∃ t, getDimension "topics" = .ok t :=
  ⟨(c8_registry_lookup "bogus").1 rfl, (c8_registry_lookup "topics").2.1 rfl⟩

/-- C9 counterexample: the claim says `suggest_value` depends on
nothing but (text, context).  The temporal dimension also reads the
wall clock: on the text `"2024"` with identical (empty) context, the
suggestion differs between a call made in 2026 (the year mentions
count as recent, confidence 5/8) and one made in 2027 (they no longer
do, confidence 3/8). -/
theorem c9_counterexample :
    suggestValue .temporalRelevance 2026 "2024" [] ≠
      suggestValue .temporalRelevance 2027 "2024" [] := by
  intro h
  have a1 : headConf (suggestValue .temporalRelevance 2026 "2024" []) = some ((5 : ℚ)/8) := by
    calc headConf (suggestValue .temporalRelevance 2026 "2024" [])
        = some (min ((((5 : ℤ)) : ℚ) / 8) (17/20)) := rfl
      _ = some ((5 : ℚ)/8) := by
          congr 1
          rw [min_eq_left (by push_cast; norm_num)]
          push_cast
          ring
  have a2 : headConf (suggestValue .temporalRelevance 2027 "2024" []) = some ((3 : ℚ)/8) := by
    calc headConf (suggestValue .temporalRelevance 2027 "2024" [])
        = some (min ((((3 : ℤ)) : ℚ) / 8) (17/20)) := rfl
      _ = some ((3 : ℚ)/8) := by
          congr 1
          rw [min_eq_left (by push_cast; norm_num)]
          push_cast
          ring
  have h3 : some ((5 : ℚ)/8) = some ((3 : ℚ)/8) :=
    a1.symm.trans ((congrArg headConf h).trans a2)
  injection h3 with h4
  norm_num at h4

/-- C9 amended: every dimension other than temporal relevance is a
pure function of (text, context) — its result does not depend on the
clock year; the temporal dimension does depend on it (see the
counterexample), but is deterministic for a fixed year. -/
theorem c9_amended (d : Dim) (hd : d ≠ Dim.temporalRelevance) (y1 y2 : ℤ)
    (text : String) (ctx : Ctx) :
    suggestValue d y1 text ctx = suggestValue d y2 text ctx := by
  cases d <;> first | rfl | exact absurd rfl hd

/-- C9 witness: clock-independence of the topic dimension at two
concrete years. -/
theorem c9_amended_witness :
    suggestValue .topics 2020 "autism" [] = suggestValue .topics 2030 "autism" [] :=
  c9_amended .topics (by decide) 2020 2030 "autism" []

/-- C10: on the scenario text, the complexity dimension suggests the
value 1 (the low end of the beginner range [1, 3] ⊆ [1, 4]) with
source `nlp` and level `beginner`, and the topic dimension's single
(hence top) suggestion is the `asd` (autism-spectrum-disorders) node
with confidence 0.9 and a non-empty matched-keywords list containing
`"autism"` and `"spectrum disorder"`. -/
theorem c10_scenario :
    okVals (suggestValue .complexity 2025
      "Dr. Smith presented an introduction to basics of autism spectrum disorders for beginners" [])
      = some [.pnum 1] ∧
    okSrcs (suggestValue .complexity 2025
      "Dr. Smith presented an introduction to basics of autism spectrum disorders for beginners" [])
      = some ["nlp"] ∧
    okConfs (suggestValue .complexity 2025
      "Dr. Smith presented an introduction to basics of autism spectrum disorders for beginners" [])
      = some [7/10] ∧
    okVals (suggestValue .topics 2025
      "Dr. Smith presented an introduction to basics of autism spectrum disorders for beginners" [])
      = some [.pstr "asd"] ∧
    okConfs (suggestValue .topics 2025
      "Dr. Smith presented an introduction to basics of autism spectrum disorders for beginners" [])
      = some [9/10] ∧
    "autism" ∈ headKwList (suggestValue .topics 2025
      "Dr. Smith presented an introduction to basics of autism spectrum disorders for beginners" []) ∧
    "spectrum disorder" ∈ headKwList (suggestValue .topics 2025
      "Dr. Smith presented an introduction to basics of autism spectrum disorders for beginners" []) ∧
    headKwList (suggestValue .topics 2025
      "Dr. Smith presented an introduction to basics of autism spectrum disorders for beginners" []) ≠ [] := by
  refine ⟨?_, rfl, rfl, rfl, ?_, by decide, by decide, by decide⟩
  · calc okVals (suggestValue .complexity 2025
        "Dr. Smith presented an introduction to basics of autism spectrum disorders for beginners" [])
        = some [.pnum ((((2 : ℤ)) : ℚ) / 2)] := rfl
      _ = some [.pnum 1] := by norm_num
  · calc okConfs (suggestValue .topics 2025
        "Dr. Smith presented an introduction to basics of autism spectrum disorders for beginners" [])
        = some [min ((((29 : ℤ)) : ℚ) / (((29 : ℤ)) : ℚ)) 1 * (9/10)] := rfl
      _ = some [9/10] := by
          have : ((((29 : ℤ)) : ℚ) / (((29 : ℤ)) : ℚ)) = 1 := by norm_num
          rw [this, min_self, one_mul]

lemma commonPref_comm : ∀ p q : List String, commonPref p q = commonPref q p := by
  intro p
  induction p with
  | nil => intro q; cases q <;> rfl
  | cons a as ih =>
    intro q
    cases q with
    | nil => rfl
    | cons b bs =>
      simp only [commonPref]
      by_cases hab : a = b
      · subst hab
        simp [ih]
      · have hba : ¬ b = a := fun hh => hab hh.symm
        simp [hab, hba]

lemma commonPref_le_left : ∀ p q : List String, commonPref p q ≤ p.length := by
  intro p
  induction p with
  | nil => intro q; cases q <;> simp [commonPref]
  | cons a as ih =>
    intro q
    cases q with
    | nil => simp [commonPref]
    | cons b bs =>
      simp only [commonPref, List.length_cons]
      split
      · have := ih bs
        omega
      · omega

lemma commonPref_head_ne (p q : List String) (h : p.head? ≠ q.head?) :
    commonPref p q = 0 := by
  cases p with
  | nil => cases q <;> rfl
  | cons a as =>
    cases q with
    | nil => rfl
    | cons b bs =>
      simp only [List.head?_cons, ne_eq, Option.some.injEq] at h
      simp [commonPref, h]

lemma allNodes_path_head : ∀ n ∈ allNodes, n.path.head? = some "Root" := by decide

/-- C6 counterexample: the claim asserts reflexivity for every value,
but a value that resolves to no taxonomy node has self-similarity
0.0, not 1.0. -/
theorem c6_counterexample :
    calcSimilarity (.pystr "nonexistent") (.pystr "nonexistent") ≠ 1 ∧
    calcSimilarity (.pystr "nonexistent") (.pystr "nonexistent") = 0 := by
  have h0 : calcSimilarity (.pystr "nonexistent") (.pystr "nonexistent") = 0 := rfl
  exact ⟨by rw [h0]; norm_num, h0⟩

/-- C6 amended: topic similarity is reflexive on every value that
resolves to a taxonomy node (unresolved values have similarity 0 even
with themselves), symmetric on all values, bounded in [0, 1]; and two
resolved nodes with no common ancestor below the root (their paths
differ at index 1) have similarity at most 1/2, namely
`1 / max(path lengths)`. -/
theorem c6_amended :
    (∀ (s : String) (n : NodeInfo), findNodeById s = some n →
      calcSimilarity (.pystr s) (.pystr s) = 1) ∧
    (∀ v w : PyIn, calcSimilarity v w = calcSimilarity w v) ∧
    (∀ v w : PyIn, 0 ≤ calcSimilarity v w ∧ calcSimilarity v w ≤ 1) ∧
    (∀ (s1 s2 : String) (n1 n2 : NodeInfo), findNodeById s1 = some n1 →
      findNodeById s2 = some n2 → n1.path.get? 1 ≠ n2.path.get? 1 →
      calcSimilarity (.pystr s1) (.pystr s2) ≤ 1/2) := by
  refine ⟨?_, ?_, ?_, ?_⟩
  · intro s n h
    unfold calcSimilarity
    simp only [findNodePy, h]
    simp
  · intro v w
    unfold calcSimilarity
    cases h1 : findNodePy v <;> cases h2 : findNodePy w
    · rfl
    · rfl
    · rfl
    · rename_i n1 n2
      simp only []
      by_cases he : n1 = n2
      · subst he
        simp
      · have he' : ¬ n2 = n1 := fun hh => he hh.symm
        simp only [he, he', if_false]
        rw [commonPref_comm, max_comm]
  · intro v w
    unfold calcSimilarity
    cases h1 : findNodePy v <;> cases h2 : findNodePy w
    · exact ⟨le_refl 0, by norm_num⟩
    · exact ⟨le_refl 0, by norm_num⟩
    · exact ⟨le_refl 0, by norm_num⟩
    · rename_i n1 n2
      simp only []
      by_cases he : n1 = n2
      · simp [he]
      · simp only [he, if_false]
        split
        · rename_i hm
          constructor
          · apply div_nonneg
            · exact_mod_cast Nat.zero_le _
            · exact_mod_cast Nat.zero_le _
          · rw [div_le_one (by exact_mod_cast hm)]
            have h1 : commonPref n1.path n2.path ≤ n1.path.length := commonPref_le_left _ _
            have h2 : n1.path.length ≤ max n1.path.length n2.path.length := le_max_left _ _
            exact_mod_cast le_trans h1 h2
        · exact ⟨le_refl 0, by norm_num⟩
  · intro s1 s2 n1 n2 h1 h2 hne
    have hm1 : n1 ∈ allNodes := List.mem_of_find?_eq_some h1
    have hm2 : n2 ∈ allNodes := List.mem_of_find?_eq_some h2
    have hh1 : n1.path.head? = some "Root" := allNodes_path_head n1 hm1
    have hh2 : n2.path.head? = some "Root" := allNodes_path_head n2 hm2
    obtain ⟨t1, ht1⟩ : ∃ t, n1.path = "Root" :: t := by
      cases hp : n1.path with
      | nil => rw [hp] at hh1; exact absurd hh1 (by simp)
      | cons a t =>
        rw [hp] at hh1
        simp only [List.head?_cons, Option.some.injEq] at hh1
        exact ⟨t, by rw [hh1]⟩
    obtain ⟨t2, ht2⟩ : ∃ t, n2.path = "Root" :: t := by
      cases hp : n2.path with
      | nil => rw [hp] at hh2; exact absurd hh2 (by simp)
      | cons a t =>
        rw [hp] at hh2
        simp only [List.head?_cons, Option.some.injEq] at hh2
        exact ⟨t, by rw [hh2]⟩
    have hne' : n1 ≠ n2 := by
      intro hh
      exact hne (by rw [hh])
    have g1 : n1.path.get? 1 = t1.head? := by
      rw [ht1]
      cases t1 <;> simp
    have g2 : n2.path.get? 1 = t2.head? := by
      rw [ht2]
      cases t2 <;> simp
    have hth : t1.head? ≠ t2.head? := by
      rw [g1, g2] at hne
      exact hne
    have hc : commonPref n1.path n2.path = 1 := by
      rw [ht1, ht2]
      simp only [commonPref, if_pos rfl]
      rw [commonPref_head_ne t1 t2 hth]
      simp
    have hlen : 2 ≤ max n1.path.length n2.path.length := by
      by_cases h1e : t1 = []
      · have h2e : t2 ≠ [] := by
          intro h2e
          apply hth
          rw [h1e, h2e]
        have hl2 : 2 ≤ n2.path.length := by
          rw [ht2]
          cases t2 with
          | nil => exact absurd rfl h2e
          | cons _ _ => simp only [List.length_cons]; omega
        exact le_trans hl2 (le_max_right _ _)
      · have hl1 : 2 ≤ n1.path.length := by
          rw [ht1]
          cases t1 with
          | nil => exact absurd rfl h1e
          | cons _ _ => simp only [List.length_cons]; omega
        exact le_trans hl1 (le_max_left _ _)
    unfold calcSimilarity
    simp only [findNodePy, h1, h2]
    rw [if_neg hne']
    have hmpos : 0 < max n1.path.length n2.path.length := by omega
    rw [if_pos hmpos, hc]
    have hq : (2 : ℚ) ≤ (max n1.path.length n2.path.length : ℕ) := by exact_mod_cast hlen
    rw [div_le_div_iff₀ (by exact_mod_cast hmpos) (by norm_num)]
    push_cast
    push_cast at hq
    linarith

/-- C6 witness: reflexivity at the `asd` node, and the similarity of
the unrelated `asd` and `cdr` nodes (different top-level branches) is
at most 1/2. -/
theorem c6_amended_witness :
    calcSimilarity (.pystr "asd") (.pystr "asd") = 1 ∧
    calcSimilarity (.pystr "asd") (.pystr "cdr") ≤ 1/2 :=
  ⟨c6_amended.1 "asd" asdInfo rfl,
   c6_amended.2.2.2 "asd" "cdr" asdInfo cdrInfo rfl rfl (by decide)⟩

lemma list_sum_div (l : List ℚ) (b : ℚ) : l.sum / b = (l.map (fun x => x / b)).sum := by
  induction l with
  | nil => simp
  | cons x xs ih => simp [List.sum_cons, add_div, ih]

lemma int_cast_list_sum (l : List ℤ) : ((l.sum : ℤ) : ℚ) = (l.map (fun x : ℤ => (x : ℚ))).sum := by
  induction l with
  | nil => simp
  | cons x xs ih =>
    simp only [List.sum_cons, List.map_cons]
    push_cast
    rfl

/-- The scale-5 integer score divided by 5 is exactly the claim's
formula `occurrence_count × (1 + 0.2 × depth)` plus the additive
`+1`-per-pattern bonus. -/
lemma topicScore5_div5 (tl : List Char) (n : NodeInfo) :
    ((topicScore5 tl n : ℤ) : ℚ) / 5 = specTopicScore tl n := by
  unfold topicScore5 topicKwScore5 topicPatScore5 specTopicScore
  rw [Int.cast_add, add_div, int_cast_list_sum, int_cast_list_sum, list_sum_div, list_sum_div]
  simp only [List.map_map]
  congr 1
  · apply congrArg List.sum
    apply List.map_congr_left
    intro k _
    simp only [Function.comp_apply]
    split
    · push_cast
      ring
    · norm_num
  · apply congrArg List.sum
    apply List.map_congr_left
    intro p _
    simp only [Function.comp_apply]
    split
    · norm_num
    · norm_num

lemma scoreM_topicRecord (tl : List Char) (m5 : ℤ) (n : NodeInfo) :
    scoreM { value := .pstr n.id
             confidence := min ((topicScore5 tl n : ℚ) / (m5 : ℚ)) 1 * (9 / 10)
             source := "nlp"
             metadata := [("path", .plist n.path),
                          ("score", .pnum ((topicScore5 tl n : ℚ) / 5)),
                          ("keywords_matched",
                           .plist (n.kw.filter (fun k => occursIn k.data tl)))] }
      = (topicScore5 tl n : ℚ) / 5 := rfl

/-- C5 amended: the topic suggestions are at most 5, sorted descending
by score, each score is exactly `occurrence_count × (1 + 0.2 × depth)`
summed over the node's matched keys plus the additive stem-pattern
bonus, the top suggestion's confidence is exactly 0.9, and every
confidence equals `min(score / top_score, 1) × 0.9` — i.e. 0.9 times
the normalized score, not the normalized score capped at 0.9. -/
theorem c5_amended (text : String) (vs : List DimensionValue)
    (h : topicSuggestValue text = .ok vs) :
    vs.length ≤ 5 ∧
    List.Pairwise (fun a b => scoreM b ≤ scoreM a) vs ∧
    (∀ v ∈ vs, ∃ n, n ∈ topicCandidates (lowerL text.data) ∧ v.value = .pstr n.id ∧
      scoreM v = specTopicScore (lowerL text.data) n) ∧
    (∀ v0, vs.head? = some v0 → v0.confidence = 9/10 ∧
      ∀ v ∈ vs, v.confidence = min (scoreM v / scoreM v0) 1 * (9/10)) := by
  unfold topicSuggestValue at h
  simp only [] at h
  split at h
  · injection h with h
    subst h
    refine ⟨by simp, by simp, by simp, ?_⟩
    intro v0 h0
    simp at h0
  · rename_i top tail heq
    split at h
    · exact Except.noConfusion h
    · rename_i hm5
      injection h with h
      subst h
      have hmq : ((topicScore5 (lowerL text.data) top : ℤ) : ℚ) ≠ 0 := by
        exact_mod_cast hm5
      refine ⟨?_, ?_, ?_, ?_⟩
      · rw [List.length_map, List.length_take]
        exact min_le_left _ _
      · apply List.pairwise_map.mpr
        have hp := sortDescBy_pairwise (fun n => topicScore5 (lowerL text.data) n)
          (topicCandidates (lowerL text.data))
        have hp5 := hp.sublist (List.take_sublist 5 _)
        apply hp5.imp
        intro a b hab
        rw [scoreM_topicRecord, scoreM_topicRecord]
        have : ((topicScore5 (lowerL text.data) b : ℤ) : ℚ) ≤
            ((topicScore5 (lowerL text.data) a : ℤ) : ℚ) := by exact_mod_cast hab
        linarith
      · intro v hv
        rcases List.mem_map.1 hv with ⟨n, hn, rfl⟩
        refine ⟨n, ?_, rfl, ?_⟩
        · exact (mem_sortDescBy _ _ _).1 (List.mem_of_mem_take hn)
        · rw [scoreM_topicRecord]
          exact topicScore5_div5 _ n
      · intro v0 h0
        rw [heq, List.take_succ_cons, List.map_cons, List.head?_cons] at h0
        injection h0 with h0
        subst h0
        constructor
        · simp only
          rw [div_self hmq, min_self, one_mul]
        · intro v hv
          rcases List.mem_map.1 hv with ⟨n, hn, rfl⟩
          simp only
          rw [scoreM_topicRecord, scoreM_topicRecord]
          congr 2
          rw [div_div_div_cancel_right₀]
          norm_num

/-- C5 counterexample: on `"autism autism mitochondria"` the two
candidate scores are 4.2 and 2.6; the second suggestion's confidence
is `(2.6 / 4.2) * 0.9 = 39/70`, which differs from the claimed
"score normalized by the top score, capped at 0.9", i.e.
`min(2.6 / 4.2, 0.9) = 13/21`. -/
theorem c5_counterexample :
    okVals (topicSuggestValue "autism autism mitochondria") =
      some [.pstr "asd", .pstr "mitochondrial"] ∧
    okScores (topicSuggestValue "autism autism mitochondria") = some [21/5, 13/5] ∧
    okConfs (topicSuggestValue "autism autism mitochondria") = some [9/10, 39/70] ∧
    ¬ ((39 : ℚ)/70 = min (((13 : ℚ)/5) / ((21 : ℚ)/5)) (9/10)) := by
  refine ⟨rfl, ?_, ?_, ?_⟩
  · calc okScores (topicSuggestValue "autism autism mitochondria")
        = some [(((21 : ℤ)) : ℚ)/5, (((13 : ℤ)) : ℚ)/5] := rfl
      _ = some [21/5, 13/5] := by norm_num
  · calc okConfs (topicSuggestValue "autism autism mitochondria")
        = some [min ((((21 : ℤ)) : ℚ)/(((21 : ℤ)) : ℚ)) 1 * (9/10),
                min ((((13 : ℤ)) : ℚ)/(((21 : ℤ)) : ℚ)) 1 * (9/10)] := rfl
      _ = some [9/10, 39/70] := by
          have e1 : ((((21 : ℤ)) : ℚ)/(((21 : ℤ)) : ℚ)) = 1 := by norm_num
          have e2 : ((((13 : ℤ)) : ℚ)/(((21 : ℤ)) : ℚ)) = 13/21 := by norm_num
          rw [e1, e2, min_self, one_mul, min_eq_left (by norm_num : (13 : ℚ)/21 ≤ 1)]
          norm_num
  · rw [min_eq_left (by norm_num)]
    norm_num

/-- C5 witness: the amended statement applied to the text `"autism"`,
whose single suggestion is the `asd` node. -/
theorem c5_amended_witness :
    [autismTopicVal].length ≤ 5 ∧
    List.Pairwise (fun a b => scoreM b ≤ scoreM a) [autismTopicVal] ∧
    (∀ v ∈ [autismTopicVal], ∃ n, n ∈ topicCandidates (lowerL ("autism" : String).data) ∧
      v.value = .pstr n.id ∧ scoreM v = specTopicScore (lowerL ("autism" : String).data) n) ∧
    (∀ v0, [autismTopicVal].head? = some v0 → v0.confidence = 9/10 ∧
      ∀ v ∈ [autismTopicVal], v.confidence = min (scoreM v / scoreM v0) 1 * (9/10)) :=
  c5_amended "autism" [autismTopicVal] rfl
